import Mathlib

/-!
Verification of the GAAYATRI chatbot intake pipeline.

This file gives a shallow embedding, in Lean 4, of the message-intake and
safety-gating pipeline of the GAAYATRI dairy-assistant web application:

* `chatbot/services.py` — `normalise_context`, `augment_context_with_cattle`,
  `should_refuse`, `_has_human_health_intent` (embedded as
  `has_human_health_intent`), `beautify_reply`, `build_refusal_reply`,
  `context_summary`, `greeting_for_context`, `matches_greeting`,
  `keyword_match`;
* `chatbot/embedding_filter.py` — `is_cattle_related` (the cosine-similarity
  score of the sentence-transformer backend is an abstract parameter);
* `gaayatri_project/chatbot/views.py` — `chat_api` and `feedback`, with the
  session/message store modelled as explicit state.

Python values that may appear in a JSON request body are modelled by `PyVal`.
Python `float` values are modelled by exact rationals (`Rat`); all rational
computation is expressed through `mkRat` and integer arithmetic so that every
definition evaluates by kernel reduction.  The term lists and regexes of the
chatbot `constants` module are not part of the sources; they enter as
parameters (`Constants`).
-/

/-! ## Python string primitives -/

/-- The whitespace characters recognised by Python `str.strip()` (ASCII part). -/
def isPySpace (c : Char) : Bool :=
  c = ' ' || c = '\t' || c = '\n' || c = '\r' || c = Char.ofNat 11 || c = Char.ofNat 12

/-- Drop the longest suffix of characters satisfying `p`. -/
def dropTrailWhile (p : Char → Bool) : List Char → List Char
  | [] => []
  | a :: t =>
    let r := dropTrailWhile p t
    if r.isEmpty && p a then [] else a :: r

/-- Strip leading and trailing whitespace of a character list. -/
def stripChars (l : List Char) : List Char :=
  dropTrailWhile isPySpace (l.dropWhile isPySpace)

/-- Python `str.strip()`. -/
def pyStrip (s : String) : String := String.mk (stripChars s.data)

/-- Boolean prefix test on character lists. -/
def isPrefixChars : List Char → List Char → Bool
  | [], _ => true
  | _ :: _, [] => false
  | a :: as, b :: bs => a == b && isPrefixChars as bs

/-- Boolean substring test on character lists (`needle`, then haystack). -/
def containsSub (n : List Char) : List Char → Bool
  | [] => n.isEmpty
  | c :: t => isPrefixChars n (c :: t) || containsSub n t

/-- Python `needle in hay` on strings (substring containment). -/
def strContains (hay needle : String) : Bool := containsSub needle.data hay.data

/-- A single apostrophe character. -/
def squote : String := String.singleton (Char.ofNat 39)

/-- Python `str.lower()` (ASCII case mapping). -/
def strLower (s : String) : String := String.mk (s.data.map Char.toLower)

/-! ## Python values -/

/-- JSON-like Python values as they occur in request payloads and contexts.
Python `float`s are modelled as exact rationals. -/
inductive PyVal where
  | none
  | bool (b : Bool)
  | int (n : Int)
  | float (q : Rat)
  | str (s : String)
  | list (xs : List PyVal)
  | dict (entries : List (String × PyVal))

mutual
/-- Structural equality on `PyVal` (used as the non-numeric part of Python `==`). -/
def pyBeq : PyVal → PyVal → Bool
  | .none, .none => true
  | .bool a, .bool b => a == b
  | .int a, .int b => a == b
  | .float a, .float b => a == b
  | .str a, .str b => a == b
  | .list xs, .list ys => pyBeqList xs ys
  | .dict xs, .dict ys => pyBeqDict xs ys
  | _, _ => false
def pyBeqList : List PyVal → List PyVal → Bool
  | [], [] => true
  | a :: as, b :: bs => pyBeq a b && pyBeqList as bs
  | _, _ => false
def pyBeqDict : List (String × PyVal) → List (String × PyVal) → Bool
  | [], [] => true
  | (k1, v1) :: as, (k2, v2) :: bs => k1 == k2 && pyBeq v1 v2 && pyBeqDict as bs
  | _, _ => false
end

/-- The numeric value of a Python number (`bool` is a subclass of `int`). -/
def pyNumVal : PyVal → Option Rat
  | .bool b => some (mkRat (if b then 1 else 0) 1)
  | .int n => some (mkRat n 1)
  | .float q => some q
  | _ => Option.none

/-- Python `==` on values: numbers compare by value across `bool`/`int`/`float`,
everything else structurally.  (Numeric cross-type equality inside nested
containers is not needed by normalised contexts and is modelled structurally.) -/
def pyEq (a b : PyVal) : Bool :=
  match pyNumVal a, pyNumVal b with
  | some x, some y => x == y
  | _, _ => pyBeq a b

/-- Python truthiness. -/
def pyTruthy : PyVal → Bool
  | .none => false
  | .bool b => b
  | .int n => n != 0
  | .float q => q.num != 0
  | .str s => s != ""
  | .list xs => !xs.isEmpty
  | .dict l => !l.isEmpty

/-- `isinstance(value, (int, float))` — includes `bool`, a subclass of `int`. -/
def isPyNumber : PyVal → Bool
  | .int _ => true
  | .float _ => true
  | .bool _ => true
  | _ => false

/-! ## Rendering values as Python does (`str`/`repr`) -/

/-- Decimal rendering of a rational whose denominator divides a power of ten;
other denominators fall back to the raw fraction (Python float `repr` is
approximated for display purposes only). -/
def ratRepr (q : Rat) : String :=
  if q.den = 1 then toString q.num ++ ".0"
  else
    match (List.range 40).find? (fun k => 10 ^ k % q.den == 0) with
    | some k =>
      let m := (q.num.natAbs * (10 ^ k / q.den))
      let ip := m / 10 ^ k
      let fp := m % 10 ^ k
      let fpStr := toString fp
      let pad := String.mk (List.replicate (k - fpStr.length) '0')
      (if q.num < 0 then "-" else "") ++ toString ip ++ "." ++ pad ++ fpStr
    | Option.none => toString q.num ++ "/" ++ toString q.den

mutual
/-- Python `repr` for JSON-like values. -/
def pyRepr : PyVal → String
  | .none => "None"
  | .bool b => if b then "True" else "False"
  | .int n => toString n
  | .float q => ratRepr q
  | .str s => squote ++ s ++ squote
  | .list xs => "[" ++ String.intercalate ", " (pyReprList xs) ++ "]"
  | .dict kvs => "\x7b" ++ String.intercalate ", " (pyReprDict kvs) ++ "\x7d"
def pyReprList : List PyVal → List String
  | [] => []
  | v :: r => pyRepr v :: pyReprList r
def pyReprDict : List (String × PyVal) → List String
  | [] => []
  | (k, v) :: r => (squote ++ k ++ squote ++ ": " ++ pyRepr v) :: pyReprDict r
end

/-- Python `str(value)`: identity on strings, `repr` otherwise. -/
def pyStr : PyVal → String
  | .str s => s
  | v => pyRepr v

/-! ## Numeric coercions -/

/-- Value of a list of decimal digit characters. -/
def digitsVal (l : List Char) : Nat := l.foldl (fun a c => a * 10 + (c.toNat - 48)) 0

/-- Python `float(s)` on the plain decimal fragment (optional sign, digits,
optional fractional part); exponents, `inf`, `nan` and underscores are outside
the behaviour exercised by this code base and are rejected by the model. -/
def parseFloat (s : String) : Option Rat :=
  let cs := (pyStrip s).data
  let sign : Int := match cs with | '-' :: _ => -1 | _ => 1
  let cs2 := match cs with | '+' :: r => r | '-' :: r => r | _ => cs
  let ip := cs2.takeWhile Char.isDigit
  let rest := cs2.dropWhile Char.isDigit
  match rest with
  | [] => if ip.isEmpty then Option.none else some (mkRat (sign * (digitsVal ip : Int)) 1)
  | '.' :: fr =>
    if fr.all Char.isDigit && !(ip.isEmpty && fr.isEmpty) then
      some (mkRat (sign * ((digitsVal ip * 10 ^ fr.length + digitsVal fr : Nat) : Int)) (10 ^ fr.length))
    else Option.none
  | _ => Option.none

/-- Python `int(s)` on strings: stripped, optional sign, decimal digits. -/
def parseIntStr (s : String) : Option Int :=
  let cs := (pyStrip s).data
  let sign : Int := match cs with | '-' :: _ => -1 | _ => 1
  let cs2 := match cs with | '+' :: r => r | '-' :: r => r | _ => cs
  if cs2.isEmpty || !cs2.all Char.isDigit then Option.none
  else some (sign * (digitsVal cs2 : Int))

/-- Python `float(value)`: exact on numbers, decimal parse on strings,
`TypeError` (`none`) elsewhere. -/
def pyFloat : PyVal → Option Rat
  | .int n => some (mkRat n 1)
  | .float q => some q
  | .bool b => some (mkRat (if b then 1 else 0) 1)
  | .str s => parseFloat s
  | _ => Option.none

/-- Python `int(value)`: truncation toward zero on floats, parse on strings,
`TypeError`/`ValueError` (`none`) elsewhere. -/
def pyToInt : PyVal → Option Int
  | .int n => some n
  | .bool b => some (if b then 1 else 0)
  | .float q => some (Int.tdiv q.num (q.den : Int))
  | .str s => parseIntStr s
  | _ => Option.none

/-- Round `q * 100` to the nearest integer, ties to even — the exact-arithmetic
content of Python `round(q, 2)`. -/
def roundHalfEven100 (q : Rat) : Int :=
  let n := q.num * 100
  let d : Int := (q.den : Int)
  let f := Int.fdiv n d
  let r2 := 2 * (n - f * d)
  if r2 < d then f else if d < r2 then f + 1 else if f % 2 = 0 then f else f + 1

/-- Python `round(q, 2)` on exact values. -/
def round2 (q : Rat) : Rat := mkRat (roundHalfEven100 q) 100

/-! ## Python dicts as insertion-ordered association lists -/

/-- A context: string-keyed Python dict, insertion ordered. -/
abbrev Ctx := List (String × PyVal)

/-- `d.get(k)` / `d[k]`. -/
def dlookup (d : Ctx) (k : String) : Option PyVal :=
  match d.find? (fun kv => kv.1 == k) with
  | some kv => some kv.2
  | Option.none => Option.none

/-- `d[k] = v`: update in place if the key exists, else append. -/
def dinsert (d : Ctx) (k : String) (v : PyVal) : Ctx :=
  if d.any (fun kv => kv.1 == k) then d.map (fun kv => if kv.1 == k then (k, v) else kv)
  else d ++ [(k, v)]

/-- `d.setdefault(k, v)`. -/
def dsetdefault (d : Ctx) (k : String) (v : PyVal) : Ctx :=
  if (dlookup d k).isSome then d else d ++ [(k, v)]

/-- `d.pop(k, None)`. -/
def dremove (d : Ctx) (k : String) : Ctx := d.filter (fun kv => kv.1 != k)

/-- Python `==` on dicts: same key set, values equal under Python `==`. -/
def ctxPyEq (a b : Ctx) : Bool :=
  a.all (fun kv => match dlookup b kv.1 with | some w => pyEq kv.2 w | Option.none => false) &&
  b.all (fun kv => match dlookup a kv.1 with | some w => pyEq kv.2 w | Option.none => false)

/-! ## `normalise_context` (chatbot/services.py) -/

def allowed_keys : List String :=
  ["source", "animal_id", "name", "tag_number", "breed", "age_years", "milk_yield",
   "issue", "notes", "lactation_stage", "last_vaccination_date", "is_sick"]

def numeric_keys : List String := ["age_years", "milk_yield"]

def boolean_keys : List String := ["is_sick"]

def truthy_tokens : List String := ["1", "true", "yes", "y"]

/-- `value in (None, "")`. -/
def isNoneOrEmptyStr : PyVal → Bool
  | .none => true
  | .str s => s == ""
  | _ => false

/-- The body of the `normalise_context` loop for a single key/value pair:
`none` means the pair is dropped. -/
def normEntry (key : String) (value : PyVal) : Option PyVal :=
  if !(allowed_keys.contains key) || isNoneOrEmptyStr value then Option.none
  else if numeric_keys.contains key then
    match pyFloat value with
    | Option.none => Option.none
    | some q => if q.den = 1 then some (.int q.num) else some (.float (round2 q))
  else if boolean_keys.contains key then
    match value with
    | .bool b => some (.bool b)
    | _ => some (.bool (truthy_tokens.contains (strLower (pyStrip (pyStr value)))))
  else if isPyNumber value then some value
  else some (.str (pyStrip (pyStr value)))

def normStep (acc : Ctx) (kv : String × PyVal) : Ctx :=
  match normEntry kv.1 kv.2 with
  | some v => dinsert acc kv.1 v
  | Option.none => acc

/-- `normalise_context(raw)`: non-dicts give `{}`; keys outside the allow list
or with empty values are dropped; numeric/boolean fields are coerced; a
non-empty result without `source` gets `source = "manual"`. -/
def normalise_context : PyVal → Ctx
  | .dict entries =>
    let cleaned := entries.foldl normStep []
    if !cleaned.isEmpty && !(dlookup cleaned "source").isSome then
      cleaned ++ [("source", .str "manual")]
    else cleaned
  | _ => []

/-! ## Term lists and patterns (chatbot/constants.py)

The `constants` module is not among the sources; its term lists and compiled
regexes are therefore abstract parameters of the classifier.  A regex
`search` is modelled as a Boolean predicate on the searched string. -/

structure Constants where
  SELF_HARM_TERMS : List String
  VIOLENCE_TERMS : List String
  HUMAN_HEALTH_TERMS : List String
  HUMAN_HEALTH_CUES : List String
  BOVINE_CORE_TERMS : List String
  GREETING_PATTERN : String → Bool
  CATTLE_KEYWORD_PATTERN : String → Bool

/-! ## Safety classifier (chatbot/services.py) -/

/-- `_has_human_health_intent(lowered)`: fires only when no bovine-possessive
phrase and no animal noun appear, a human-health term appears, and a personal
affliction cue co-occurs. -/
def has_human_health_intent (c : Constants) (lowered : String) : Bool :=
  if c.BOVINE_CORE_TERMS.any (fun term => strContains lowered ("my " ++ term)) then false
  else if ["cow", "buffalo", "cattle", "calf", "heifer", "bull", "livestock", "animal"].any
      (fun term => strContains lowered term) then false
  else if !(c.HUMAN_HEALTH_TERMS.any (fun term => strContains lowered term)) then false
  else c.HUMAN_HEALTH_CUES.any (fun cue => strContains lowered cue)

/-- `should_refuse(message, has_cattle_context)`. -/
def should_refuse (c : Constants) (message : String) (has_cattle_context : Bool) :
    Option String :=
  let lowered := strLower message
  if c.SELF_HARM_TERMS.any (fun term => strContains lowered term) then some "self_harm"
  else if !has_cattle_context then
    if c.VIOLENCE_TERMS.any (fun term => strContains lowered term) then some "violence"
    else if has_human_health_intent c lowered then some "human_health"
    else if strContains lowered "medicine for me" || strContains lowered "treatment for me"
        || strContains lowered "i need medicine" then some "human_health"
    else Option.none
  else Option.none

/-! ## Reply post-processor `beautify_reply` (chatbot/services.py) -/

/-- `re.sub(r"[ \t]+", " ", ·)`: collapse runs of spaces/tabs to one space.
The Boolean records whether the previous character was part of a run. -/
def collapseAux : Bool → List Char → List Char
  | _, [] => []
  | prevSp, c :: r =>
    if c = ' ' || c = '\t' then
      if prevSp then collapseAux true r else ' ' :: collapseAux true r
    else c :: collapseAux false r

/-- `re.split(r"\n\x7b2,\x7d", ·)`: split on maximal runs of two or more
newlines.  `cur` is the current piece reversed, `nl` counts pending newlines. -/
def parasAux : List Char → Nat → List Char → List (List Char)
  | cur, nl, [] => if nl ≥ 2 then [cur.reverse, []] else [cur.reverse ++ List.replicate nl '\n']
  | cur, nl, c :: r =>
    if c = '\n' then parasAux cur (nl + 1) r
    else if nl ≥ 2 then cur.reverse :: parasAux [c] 0 r
    else parasAux (c :: (List.replicate nl '\n' ++ cur)) 0 r

/-- Does the (reversed) current piece end with `.`, `!` or `?` -/
def punctEnd : List Char → Bool
  | p :: _ => p = '.' || p = '!' || p = '?'
  | [] => false

/-- `re.split(r"(?<=[.!?])\s+", ·)`: split at whitespace runs that follow a
sentence-ending punctuation mark; the run is consumed. -/
def sentAux : List Char → Bool → List Char → List (List Char)
  | cur, _, [] => [cur.reverse]
  | cur, true, c :: r =>
    if isPySpace c then sentAux cur true r else sentAux [c] false r
  | cur, false, c :: r =>
    if isPySpace c && punctEnd cur then cur.reverse :: sentAux [] true r
    else sentAux (c :: cur) false r

def splitParagraphs (s : String) : List String :=
  (parasAux [] 0 s.data).map (fun l => String.mk l)

def splitSentences (s : String) : List String :=
  (sentAux [] false s.data).map (fun l => String.mk l)

/-- `beautify_reply(text)`: strip, collapse horizontal whitespace, split into
paragraphs, and render multi-sentence paragraphs as a lead line plus bullets. -/
def beautify_reply (text : String) : String :=
  let t0 := pyStrip text
  if t0 = "" then t0
  else
    let t1 := String.mk (collapseAux false t0.data)
    let paragraphs := ((splitParagraphs t1).map pyStrip).filter (fun p => p != "")
    let formatted := paragraphs.map (fun paragraph =>
      let sentences := ((splitSentences paragraph).map pyStrip).filter (fun s => s != "")
      match sentences with
      | [] => paragraph
      | [_] => paragraph
      | lead :: rest => String.intercalate "\n" (lead :: rest.map (fun s => "- " ++ s)))
    if formatted.isEmpty then t1 else String.intercalate "\n\n" formatted

/-- `build_refusal_reply(reason)`. -/
def build_refusal_reply (reason : String) : String :=
  let base := "I" ++ squote ++ "m here to support Indian dairy farmers with cattle care and management."
  let guidance :=
    if reason = "human_health" then
      " I can" ++ squote ++ "t provide advice on human medical concerns. Please speak with a qualified doctor or your local health helpline for assistance."
    else if reason = "self_harm" then
      " It sounds like you may need urgent help. Contact local emergency services, a trusted person, or a mental health professional immediately."
    else if reason = "violence" then
      " I can" ++ squote ++ "t assist with harmful or illegal actions. Please stay safe and reach out to the appropriate authorities if needed."
    else
      " Let" ++ squote ++ "s focus on bovine health, nutrition, reproduction, housing, or dairy farm management queries."
  beautify_reply (base ++ guidance)

/-! ## Context summary and greeting (chatbot/services.py) -/

/-- `context_summary(ctx)`.  (Python appends the raw `name` value to a list
joined with `", "`; the model renders it with `str`, which agrees whenever the
value is a string.) -/
def context_summary (ctx : Ctx) : String :=
  if ctx.isEmpty then ""
  else
    let get := fun k => (dlookup ctx k).getD .none
    let addIf := fun (parts : List String) (k : String) (f : PyVal → String) =>
      if pyTruthy (get k) then parts ++ [f (get k)] else parts
    let parts : List String := []
    let parts := addIf parts "name" (fun v => pyStr v)
    let parts := addIf parts "breed" (fun v => pyStr v ++ " breed")
    let parts := addIf parts "age_years" (fun v => pyStr v ++ " years old")
    let parts := addIf parts "milk_yield" (fun v => pyStr v ++ " L/day")
    let parts := addIf parts "issue" (fun v => "Issue: " ++ pyStr v)
    let parts := addIf parts "lactation_stage" (fun v => "Stage: " ++ pyStr v)
    String.intercalate ", " parts

/-- `greeting_for_context(context)`. -/
def greeting_for_context (context : Ctx) : String :=
  let welcome := "Namaste! I" ++ squote ++ "m GAAYATRI" ++ squote
    ++ "s dairy assistant. Ask me about cow or buffalo health, milk yield, nutrition, breeding, or daily management."
  let summary := context_summary context
  if summary != "" then beautify_reply ("Namaste! I see we" ++ squote ++ "re discussing " ++ summary ++ ". " ++ welcome)
  else beautify_reply welcome

/-- `matches_greeting(text)`. -/
def matches_greeting (c : Constants) (text : String) : Bool :=
  c.GREETING_PATTERN (strLower text)

/-- `keyword_match(lowered)`. -/
def keyword_match (c : Constants) (lowered : String) : Bool :=
  c.CATTLE_KEYWORD_PATTERN lowered

/-! ## Semantic filter `is_cattle_related` (chatbot/embedding_filter.py)

The sentence-transformer backend is a collaborator: the best cosine similarity
it reports for a query is an abstract function `score`.  The filter returns
`(false, 0.0)` for empty input and otherwise compares the score against the
threshold. -/

def is_cattle_related (score : String → Rat) (threshold : Rat) (query : String) :
    Bool × Rat :=
  if query = "" then (false, mkRat 0 1)
  else (threshold ≤ score query, score query)

/-! ## Context enrichment `augment_context_with_cattle` (chatbot/services.py) -/

/-- A stored `core.models.Cattle` row, as read by the enrichment code
(`daily_milk_yield` is nullable, dates are rendered by `isoformat()`). -/
structure CattleRec where
  pk : Int
  name : String
  tag_number : String
  breed : String
  age_years : Int
  daily_milk_yield : Option Rat
  last_vaccination_date : Option String

/-- Lines 261–272 of services.py: resolve `animal_id` to a stored record —
skip empty ids, coerce with `int(...)` (failure gives no lookup), treat pk 0 as
falsy, and look up by pk and owner. -/
def augment_lookup (cattle : Int → Option CattleRec) (context : Ctx) : Option CattleRec :=
  let animal_pk : Option Int :=
    match dlookup context "animal_id" with
    | some v => if isNoneOrEmptyStr v then Option.none else pyToInt v
    | Option.none => Option.none
  match animal_pk with
  | some n => if n != 0 then cattle n else Option.none
  | Option.none => Option.none

/-- Lines 273–289 of services.py: on a hit, stamp the canonical id and
`source="saved"` and `setdefault` the fill fields; on a miss, strip
`animal_id`. -/
def augment_enrich (context : Ctx) : Option CattleRec → Ctx
  | some cobj =>
    let e := dinsert context "animal_id" (.int cobj.pk)
    let e := dinsert e "source" (.str "saved")
    let e := dsetdefault e "name" (.str cobj.name)
    let e := dsetdefault e "tag_number" (.str cobj.tag_number)
    let e := dsetdefault e "breed" (.str cobj.breed)
    let e := dsetdefault e "age_years" (.int cobj.age_years)
    let e :=
      match cobj.daily_milk_yield with
      | some milk =>
        dsetdefault e "milk_yield" (if milk.den = 1 then .int milk.num else .float (round2 milk))
      | Option.none => e
    match cobj.last_vaccination_date with
    | some d => dsetdefault e "last_vaccination_date" (.str d)
    | Option.none => e
  | Option.none => dremove context "animal_id"

/-- `augment_context_with_cattle(user, context)`: the animal-record store is
the lookup function `cattle` (`Cattle.objects.get(pk=·, owner=user)`).  After
enrichment, fields that ended up empty/`None` are pruned. -/
def augment_context_with_cattle (cattle : Int → Option CattleRec) (context : Ctx) : Ctx :=
  if context.isEmpty then []
  else
    (augment_enrich context (augment_lookup cattle context)).filter
      (fun kv => !isNoneOrEmptyStr kv.2)

/-! ## Session/message store (chatbot/models.py)

`ChatSession` and `ChatMessage` rows, with the database modelled as explicit
lists plus primary-key counters. -/

structure Session where
  id : Nat
  userId : Nat
  context : Ctx

structure Msg where
  id : Nat
  sessionId : Nat
  role : String
  text : String
  location : String
  feedback : Int

structure Store where
  sessions : List Session
  messages : List Msg
  nextSessionId : Nat
  nextMsgId : Nat

/-! ## The `chat_api` view (gaayatri_project/chatbot/views.py)

External collaborators are gathered in `Env`: the animal-record store, the
semantic-embedding backend (import success, call success, and the abstract
similarity score with its threshold), the geo-derived location label
(`get_location_label` performs session-cached HTTP lookups and is modelled by
the label it produces), and the Groq completion client
(`call_groq_sync`, modelled by the `GroqResponse` it returns). -/

/-- The dataclass `GroqResponse` of chatbot/services.py.  Every failure path of
`call_groq_sync` carries a non-`none` `error_code`. -/
structure GroqResponse where
  reply : Option String
  error_code : Option String

structure Env where
  cattle : Int → Option CattleRec
  embedAvailable : Bool
  embedCallFails : Bool
  score : String → Rat
  threshold : Rat
  location : String
  groq : GroqResponse

structure Request where
  userId : Nat
  isFarmer : Bool
  message : String
  context : PyVal
  activeSessionId : Option Nat

/-- The JSON responses of `chat_api` that matter to the spec: an error payload
(with HTTP status and, when present, `session_id`), or a success payload. -/
inductive ChatResult where
  | error (code : String) (status : Nat) (sessionId : Option Nat)
  | reply (text : String) (botMessageId : Nat) (sessionId : Nat)

/-- Which branch of the pipeline produced the response (trace instrumentation;
not part of the Python return value). -/
inductive Decision where
  | empty
  | forbidden
  | greeting
  | refusal (reason : String)
  | scope
  | llm

structure ChatOutcome where
  result : ChatResult
  store : Store
  active : Option Nat
  decision : Decision
  groqCalled : Bool

/-- `ChatMessage.objects.create(...)`: returns the new primary key. -/
def addMessage (st : Store) (sid : Nat) (role text location : String) : Nat × Store :=
  (st.nextMsgId,
   { st with
     messages := st.messages ++ [⟨st.nextMsgId, sid, role, text, location, 0⟩],
     nextMsgId := st.nextMsgId + 1 })

/-- Lines 59–65 of views.py: load the active session if it exists and belongs
to the user, else create a fresh one (empty context) and point the browser
session at it. -/
def resolveSession (st : Store) (userId : Nat) (active : Option Nat) :
    Session × Store × Option Nat :=
  let found :=
    match active with
    | some sid => st.sessions.find? (fun s => s.id == sid && s.userId == userId)
    | Option.none => Option.none
  match found with
  | some s => (s, st, active)
  | Option.none =>
    let ns : Session := ⟨st.nextSessionId, userId, []⟩
    (ns,
     { st with sessions := st.sessions ++ [ns], nextSessionId := st.nextSessionId + 1 },
     some ns.id)

/-- Lines 70–81 of views.py: if the incoming context is non-empty and differs
from the session context, fork a new session when messages already exist under
the session, else update the context in place; the working context becomes the
incoming one. -/
def applyContext (st : Store) (userId : Nat) (session : Session) (active : Option Nat)
    (incoming : Ctx) : Session × Store × Option Nat × Ctx :=
  let context := session.context
  if !incoming.isEmpty then
    if !ctxPyEq context incoming then
      if st.messages.any (fun m => m.sessionId == session.id) then
        let ns : Session := ⟨st.nextSessionId, userId, incoming⟩
        (ns,
         { st with sessions := st.sessions ++ [ns], nextSessionId := st.nextSessionId + 1 },
         some ns.id, incoming)
      else
        let updated := st.sessions.map
          (fun s => if s.id == session.id then { s with context := incoming } else s)
        ({ session with context := incoming }, { st with sessions := updated },
         active, incoming)
    else (session, st, active, incoming)
  else (session, st, active, context)

/-- The fixed scope-narrowing reply of lines 114–117 of views.py. -/
def scope_reply : String :=
  beautify_reply ("I" ++ squote
    ++ "m focused on dairy cattle support. Choose one of your saved animals or share breed, age, milk yield, and current symptoms so I can guide you better.")

/-- Lines 102–143 of views.py, after the user message has been stored:
greeting check, refusal check, scope gate, then the LLM call.
(`embedding_debug_log` only logs and has no observable effect.) -/
def pipeline (c : Constants) (env : Env) (st : Store) (session : Session)
    (active : Option Nat) (context : Ctx) (msg : String) (embedding_pass : Bool) :
    ChatOutcome :=
  let lowered := strLower msg
  let has_context := !context.isEmpty
  if matches_greeting c lowered then
    let welcome := greeting_for_context (if has_context then context else [])
    let r := addMessage st session.id "bot" welcome env.location
    ⟨.reply welcome r.1 session.id, r.2, active, .greeting, false⟩
  else
    match should_refuse c msg
        (has_context || c.BOVINE_CORE_TERMS.any (fun t => strContains lowered t)) with
    | some reason =>
      let t := build_refusal_reply reason
      let r := addMessage st session.id "bot" t env.location
      ⟨.reply t r.1 session.id, r.2, active, .refusal reason, false⟩
    | Option.none =>
      if !(has_context || keyword_match c lowered || embedding_pass) then
        let r := addMessage st session.id "bot" scope_reply env.location
        ⟨.reply scope_reply r.1 session.id, r.2, active, .scope, false⟩
      else
        match env.groq.reply with
        | Option.none =>
          ⟨.error "model_error" (if env.groq.error_code.isSome then 502 else 500)
             (some session.id), st, active, .llm, true⟩
        | some reply =>
          let t := beautify_reply reply
          let r := addMessage st session.id "bot" t env.location
          ⟨.reply t r.1 session.id, r.2, active, .llm, true⟩

/-- `chat_api(request)`: empty-message and farmer checks, session resolution,
context normalisation/enrichment, fork handling, embedding filter, user-message
persistence, then the branch pipeline. -/
def chat_api (c : Constants) (env : Env) (st : Store) (req : Request) : ChatOutcome :=
  let msg := pyStrip req.message
  if msg = "" then ⟨.error "empty_message" 400 Option.none, st, req.activeSessionId, .empty, false⟩
  else if !req.isFarmer then
    ⟨.error "forbidden" 403 Option.none, st, req.activeSessionId, .forbidden, false⟩
  else
    let r1 := resolveSession st req.userId req.activeSessionId
    let incoming := augment_context_with_cattle env.cattle (normalise_context req.context)
    let r2 := applyContext r1.2.1 req.userId r1.1 r1.2.2 incoming
    let embedding_pass :=
      if env.embedAvailable then
        if env.embedCallFails then false
        else (is_cattle_related env.score env.threshold msg).1
      else false
    let st3 := (addMessage r2.2.1 r2.1.id "user" msg env.location).2
    pipeline c env st3 r2.1 r2.2.2.1 r2.2.2.2 msg embedding_pass

/-- `session_id` carried by a `chat_api` response. -/
def resultSessionId : ChatResult → Option Nat
  | .error _ _ sid => sid
  | .reply _ _ sid => some sid

/-- Reply text carried by a successful `chat_api` response. -/
def resultText : ChatResult → Option String
  | .error _ _ _ => Option.none
  | .reply t _ _ => some t

/-! ## The `feedback` view (gaayatri_project/chatbot/views.py) -/

inductive FeedbackResult where
  | invalid_payload
  | not_found
  | forbidden
  | invalid_feedback
  | ok
deriving DecidableEq

/-- `feedback(request)`: parse `message_id`/`feedback` with `int(...)`, look up
the bot-role message by primary key, check ownership, check the score range,
then store the feedback. -/
def feedback (st : Store) (userId : Nat) (midRaw fbRaw : PyVal) :
    FeedbackResult × Store :=
  match pyToInt midRaw, pyToInt fbRaw with
  | some mid, some fb =>
    (match st.messages.find? (fun m => (m.id : Int) == mid && m.role == "bot") with
     | Option.none => (.not_found, st)
     | some m =>
       if ((st.sessions.find? (fun s => s.id == m.sessionId)).map (fun s => s.userId))
           ≠ some userId then (.forbidden, st)
       else if fb != -1 && fb != 0 && fb != 1 then (.invalid_feedback, st)
       else
         let updated := st.messages.map
           (fun m2 => if m2.id == m.id then { m2 with feedback := fb } else m2)
         (.ok, { st with messages := updated }))
  | _, _ => (.invalid_payload, st)

/-! # Theorems -/

set_option maxRecDepth 16000

/-- Modelled from the spec: representative contents for the term lists and
patterns of the missing `chatbot/constants.py` module (§4.1 of the spec lists
greeting patterns, cattle keywords, human-health terms and cues, self-harm and
violence terms, and bovine core terms such as "cow").  Used only to
instantiate the abstract `Constants` parameter in witnesses and
counterexamples. -/
def sampleConstants : Constants := {
  SELF_HARM_TERMS := ["end my life", "suicide", "kill myself"]
  VIOLENCE_TERMS := ["kill", "attack"]
  HUMAN_HEALTH_TERMS := ["fever", "headache", "medicine"]
  HUMAN_HEALTH_CUES := ["i have", "my fever", "i feel"]
  BOVINE_CORE_TERMS := ["cow", "buffalo", "cattle", "calf"]
  GREETING_PATTERN := fun s => strContains s "hello" || strContains s "namaste"
  CATTLE_KEYWORD_PATTERN := fun s => strContains s "cow" || strContains s "cattle" || strContains s "milk" }

/-- C1: any message containing a self-harm term in its lowercased form makes
`should_refuse` return `"self_harm"`, for both values of the cattle-context
flag — no other content can suppress it. -/
theorem should_refuse_self_harm_absolute (c : Constants) (message : String) (flag : Bool)
    (term : String) (hmem : term ∈ c.SELF_HARM_TERMS)
    (hsub : strContains (strLower message) term = true) :
    should_refuse c message flag = some "self_harm" := by
  unfold should_refuse
  have h : (c.SELF_HARM_TERMS.any fun t => strContains (strLower message) t) = true :=
    List.any_eq_true.2 ⟨term, hmem, hsub⟩
  simp [h]

/-- Witness for C1: a concrete self-harm message with full cattle context. -/
theorem should_refuse_self_harm_absolute_witness :
    should_refuse sampleConstants "I have cattle but I want to END MY LIFE" true
      = some "self_harm" :=
  should_refuse_self_harm_absolute sampleConstants _ true "end my life" (by decide) (by decide)

/-- C5: a bovine-possessive phrase `"my <bovine-term>"` in the lowered message
makes `_has_human_health_intent` return `False`, whatever else the message
contains. -/
theorem bovine_possessive_suppresses_human_health (c : Constants) (lowered : String)
    (term : String) (hmem : term ∈ c.BOVINE_CORE_TERMS)
    (hsub : strContains lowered ("my " ++ term) = true) :
    has_human_health_intent c lowered = false := by
  unfold has_human_health_intent
  have h : (c.BOVINE_CORE_TERMS.any fun t => strContains lowered ("my " ++ t)) = true :=
    List.any_eq_true.2 ⟨term, hmem, hsub⟩
  simp [h]

/-- Witness for C5: "my cow has fever" with the affliction cue "i have". -/
theorem bovine_possessive_suppresses_human_health_witness :
    has_human_health_intent sampleConstants "my cow has fever and i have a headache" = false :=
  bovine_possessive_suppresses_human_health sampleConstants _ "cow" (by decide) (by decide)

/-- C10: when every stored message carrying the requested id has role
`"user"` (in particular when a user-role message exists under that id, or when
no message has that id at all), a well-formed feedback submission yields
`not_found` and leaves the store untouched — the ownership and score-range
checks never run because the bot-role existence check comes first. -/
theorem feedback_user_role_not_found (st : Store) (userId : Nat) (midRaw fbRaw : PyVal)
    (mid : Int) (hmid : pyToInt midRaw = some mid)
    (hfb : (pyToInt fbRaw).isSome = true)
    (hrole : ∀ m ∈ st.messages, (m.id : Int) = mid → m.role = "user") :
    feedback st userId midRaw fbRaw = (FeedbackResult.not_found, st) := by
  obtain ⟨fb, hfb2⟩ := Option.isSome_iff_exists.1 hfb
  have hnone : st.messages.find? (fun m => (m.id : Int) == mid && m.role == "bot")
      = Option.none := by
    rw [List.find?_eq_none]
    intro m hm hpred
    simp only [Bool.and_eq_true, beq_iff_eq] at hpred
    have := hrole m hm hpred.1
    rw [this] at hpred
    exact absurd hpred.2 (by decide)
  unfold feedback
  rw [hmid, hfb2]
  simp only [hnone]

/-- Witness for C10: message 1 exists with role `"user"`, the requester even
owns it, yet feedback on it is `not_found` and nothing changes. -/
theorem feedback_user_role_not_found_witness :
    feedback ⟨[⟨1, 7, []⟩], [⟨1, 1, "user", "hi", "India", 0⟩], 2, 2⟩ 7 (.int 1) (.int 1)
      = (FeedbackResult.not_found, ⟨[⟨1, 7, []⟩], [⟨1, 1, "user", "hi", "India", 0⟩], 2, 2⟩) :=
  feedback_user_role_not_found _ 7 _ _ 1 rfl rfl
    (by intro m hm h; simp only [List.mem_singleton] at hm; subst hm; rfl)

/-- `float(value)` succeeding forces the value to be outside `(None, "")`. -/
theorem pyFloat_not_empty {v : PyVal} {q : Rat} (h : pyFloat v = some q) :
    isNoneOrEmptyStr v = false := by
  cases v with
  | none => rw [show pyFloat PyVal.none = Option.none from rfl] at h; cases h
  | str s =>
    simp only [isNoneOrEmptyStr]
    by_contra hc
    simp only [Bool.not_eq_false, beq_iff_eq] at hc
    subst hc
    rw [show pyFloat (PyVal.str "") = Option.none from rfl] at h
    cases h
  | bool b => rfl
  | int n => rfl
  | float r => rfl
  | list xs => rfl
  | dict l => rfl

/-- `normalise_context` on a one-entry dict, in terms of the per-entry step. -/
theorem normalise_singleton (k : String) (v : PyVal) :
    normalise_context (.dict [(k, v)]) =
      match normEntry k v with
      | some w => if k == "source" then [(k, w)] else [(k, w), ("source", .str "manual")]
      | Option.none => [] := by
  unfold normalise_context
  cases hn : normEntry k v with
  | none => simp [normStep, hn]
  | some w =>
    simp only [List.foldl, normStep, hn, dinsert, List.any_nil, Bool.false_eq_true,
      if_neg, List.nil_append]
    cases hk : (k == "source") with
    | true =>
      have hl : dlookup [(k, w)] "source" = some w := by
        simp only [dlookup, List.find?, hk]
      simp [hl, hk]
    | false =>
      have hl : dlookup [(k, w)] "source" = Option.none := by
        simp only [dlookup, List.find?, hk]
      simp [hl, hk]

/-- C8: numeric coercion in `normalise_context` — a numeric field whose value
fails `float(...)` is dropped; a coercion to a whole number is stored as an
integer; any other coercion is stored rounded to two decimal places; in
particular `age_years="6.0"` gives the integer `6` and `milk_yield="11.23456"`
gives `11.23`. -/
theorem normalise_numeric_coercion :
    (∀ v : PyVal, pyFloat v = Option.none →
       normalise_context (.dict [("age_years", v)]) = []) ∧
    (∀ (k : String) (v : PyVal) (q : Rat), k ∈ numeric_keys → pyFloat v = some q →
       q.den = 1 →
       normalise_context (.dict [(k, v)]) = [(k, .int q.num), ("source", .str "manual")]) ∧
    (∀ (k : String) (v : PyVal) (q : Rat), k ∈ numeric_keys → pyFloat v = some q →
       q.den ≠ 1 →
       normalise_context (.dict [(k, v)])
         = [(k, .float (round2 q)), ("source", .str "manual")]) ∧
    normalise_context (.dict [("age_years", .str "6.0"), ("milk_yield", .str "11.23456")])
      = [("age_years", .int 6), ("milk_yield", .float (mkRat 1123 100)),
         ("source", .str "manual")] := by
  refine ⟨?_, ?_, ?_, rfl⟩
  · intro v hv
    rw [normalise_singleton]
    cases hne : isNoneOrEmptyStr v with
    | true => rw [show normEntry "age_years" v = Option.none from by simp [normEntry, hne]]
    | false =>
      rw [show normEntry "age_years" v = Option.none from by
        simp [normEntry, hne, hv, show "age_years" ∈ allowed_keys from by decide,
          show "age_years" ∈ numeric_keys from by decide]]
  · intro k v q hk hq hden
    have hne := pyFloat_not_empty hq
    have hn : normEntry k v = some (.int q.num) := by
      rcases (show k = "age_years" ∨ k = "milk_yield" by
        simpa [numeric_keys] using hk) with h | h <;> subst h <;>
        simp [normEntry, hne, hq, hden,
          show "age_years" ∈ allowed_keys from by decide,
          show "age_years" ∈ numeric_keys from by decide,
          show "milk_yield" ∈ allowed_keys from by decide,
          show "milk_yield" ∈ numeric_keys from by decide]
    rw [normalise_singleton, hn]
    rcases (show k = "age_years" ∨ k = "milk_yield" by
      simpa [numeric_keys] using hk) with h | h <;> subst h <;> rfl
  · intro k v q hk hq hden
    have hne := pyFloat_not_empty hq
    have hn : normEntry k v = some (.float (round2 q)) := by
      rcases (show k = "age_years" ∨ k = "milk_yield" by
        simpa [numeric_keys] using hk) with h | h <;> subst h <;>
        simp [normEntry, hne, hq, hden,
          show "age_years" ∈ allowed_keys from by decide,
          show "age_years" ∈ numeric_keys from by decide,
          show "milk_yield" ∈ allowed_keys from by decide,
          show "milk_yield" ∈ numeric_keys from by decide]
    rw [normalise_singleton, hn]
    rcases (show k = "age_years" ∨ k = "milk_yield" by
      simpa [numeric_keys] using hk) with h | h <;> subst h <;> rfl

/-- Witness for C8: the general clauses applied at `"abc"` (coercion failure),
`7` (whole number) and `5.5` (fractional). -/
theorem normalise_numeric_coercion_witness :
    normalise_context (.dict [("age_years", .str "abc")]) = [] ∧
    normalise_context (.dict [("milk_yield", .int 7)])
      = [("milk_yield", .int (mkRat 7 1).num), ("source", .str "manual")] ∧
    normalise_context (.dict [("age_years", .float (mkRat 11 2))])
      = [("age_years", .float (round2 (mkRat 11 2))), ("source", .str "manual")] :=
  ⟨normalise_numeric_coercion.1 _ (by decide),
   normalise_numeric_coercion.2.1 "milk_yield" (.int 7) (mkRat 7 1) (by decide) rfl (by decide),
   normalise_numeric_coercion.2.2.1 "age_years" (.float (mkRat 11 2)) (mkRat 11 2)
     (by decide) rfl (by decide)⟩

/-! ### Association-list lemmas for the enrichment proof -/

theorem dlookup_cons (a : String × PyVal) (t : Ctx) (k : String) :
    dlookup (a :: t) k = if a.1 == k then some a.2 else dlookup t k := by
  simp only [dlookup, List.find?]
  cases h : (a.1 == k) with
  | true => simp [h]
  | false => simp [h]

theorem dlookup_append (d e : Ctx) (k : String) :
    dlookup (d ++ e) k = (dlookup d k).or (dlookup e k) := by
  unfold dlookup
  rw [List.find?_append]
  cases d.find? (fun kv => kv.1 == k) <;> simp [Option.or]

theorem dlookup_append_left {d : Ctx} {k : String} {v : PyVal} (h : dlookup d k = some v)
    (e : Ctx) : dlookup (d ++ e) k = some v := by
  rw [dlookup_append, h]; rfl

theorem dlookup_mapUpd_ne (d : Ctx) {k k2 : String} (v : PyVal) (hne : k ≠ k2) :
    dlookup (d.map (fun kv => if kv.1 == k2 then (k2, v) else kv)) k = dlookup d k := by
  induction d with
  | nil => rfl
  | cons a t ih =>
    rw [List.map_cons, dlookup_cons, dlookup_cons]
    by_cases ha : (a.1 == k2) = true
    · rw [if_pos ha]
      have h1 : ((k2, v).1 == k) = false := beq_eq_false_iff_ne.2 (Ne.symm hne)
      have h2 : (a.1 == k) = false := by
        have h3 : a.1 = k2 := by simpa using ha
        exact beq_eq_false_iff_ne.2 (by rw [h3]; exact Ne.symm hne)
      rw [h1, h2]
      simpa using ih
    · rw [if_neg ha]
      by_cases hk : (a.1 == k) = true
      · rw [if_pos hk, if_pos hk]
      · rw [if_neg hk, if_neg hk]; exact ih

theorem dlookup_dinsert_ne (d : Ctx) {k k2 : String} (v : PyVal) (hne : k ≠ k2) :
    dlookup (dinsert d k2 v) k = dlookup d k := by
  unfold dinsert
  by_cases hx : d.any (fun kv => kv.1 == k2) = true
  · rw [if_pos hx]; exact dlookup_mapUpd_ne d v hne
  · rw [if_neg hx, dlookup_append]
    have h1 : dlookup [(k2, v)] k = Option.none := by
      rw [dlookup_cons, show ((k2, v).1 == k) = false from beq_eq_false_iff_ne.2 (Ne.symm hne)]
      simp [dlookup]
    rw [h1]
    cases dlookup d k <;> rfl

theorem dlookup_dsetdefault_pres {d : Ctx} {k : String} {v : PyVal}
    (h : dlookup d k = some v) (k2 : String) (w : PyVal) :
    dlookup (dsetdefault d k2 w) k = some v := by
  unfold dsetdefault
  by_cases hs : (dlookup d k2).isSome = true
  · rw [if_pos hs]; exact h
  · rw [if_neg hs]; exact dlookup_append_left h _

theorem dlookup_dremove_ne (d : Ctx) {k k2 : String} (hne : k ≠ k2) :
    dlookup (dremove d k2) k = dlookup d k := by
  unfold dremove
  induction d with
  | nil => rfl
  | cons a t ih =>
    rw [List.filter_cons]
    by_cases ha : (a.1 == k) = true
    · have hkeep : (a.1 != k2) = true := by
        have h3 : a.1 = k := by simpa using ha
        simp [h3, hne]
      rw [if_pos hkeep, dlookup_cons, dlookup_cons, if_pos ha, if_pos ha]
    · by_cases hk2 : (a.1 != k2) = true
      · rw [if_pos hk2, dlookup_cons, dlookup_cons, if_neg ha, if_neg ha]; exact ih
      · rw [if_neg hk2, ih, dlookup_cons, if_neg ha]

theorem dlookup_filter_of_pred {P : String × PyVal → Bool} {d : Ctx} {k : String} {v : PyVal}
    (h : dlookup d k = some v) (hP : P (k, v) = true) :
    dlookup (d.filter P) k = some v := by
  induction d with
  | nil => exact absurd h (by simp [dlookup])
  | cons a t ih =>
    rw [dlookup_cons] at h
    rw [List.filter_cons]
    by_cases ha : (a.1 == k) = true
    · rw [if_pos ha] at h
      have hak : a.1 = k := by simpa using ha
      have hav : a.2 = v := by injection h
      have hPa : P a = true := by
        have h1 := hP
        rw [← hak, ← hav] at h1
        exact h1
      rw [if_pos hPa, dlookup_cons, if_pos ha, hav]
    · rw [if_neg ha] at h
      by_cases hpa : P a = true
      · rw [if_pos hpa, dlookup_cons, if_neg ha]; exact ih h
      · rw [if_neg hpa]; exact ih h

/-- A value outside `(None, "")` survives the final prune of the enrichment. -/
theorem not_none_or_empty {v : PyVal} (hvn : v ≠ .none) (hvs : v ≠ .str "") :
    (!isNoneOrEmptyStr v) = true := by
  cases v with
  | none => exact absurd rfl hvn
  | str s =>
    simp only [isNoneOrEmptyStr, Bool.not_eq_true']
    exact beq_eq_false_iff_ne.2 (fun hc => hvs (by rw [hc]))
  | bool b => rfl
  | int n => rfl
  | float q => rfl
  | list xs => rfl
  | dict l => rfl

/-- C6 (amended): `augment_context_with_cattle` never overwrites a
caller-supplied fill field — for any animal-record store, a fill key present
in the input with a non-`None`, non-empty value keeps exactly that value in
the enriched output.  (A present but empty/`None` value is pruned instead,
see the counterexample.) -/
theorem augment_keeps_caller_fields (cattle : Int → Option CattleRec) (ctx : Ctx)
    (k : String) (v : PyVal)
    (hk : k ∈ ["name", "tag_number", "breed", "age_years", "milk_yield",
               "last_vaccination_date"])
    (hv : dlookup ctx k = some v) (hvn : v ≠ .none) (hvs : v ≠ .str "") :
    dlookup (augment_context_with_cattle cattle ctx) k = some v := by
  have hkc : k = "name" ∨ k = "tag_number" ∨ k = "breed" ∨ k = "age_years"
      ∨ k = "milk_yield" ∨ k = "last_vaccination_date" := by simpa using hk
  have hne1 : k ≠ "animal_id" := by
    rcases hkc with h | h | h | h | h | h <;> subst h <;> decide
  have hne2 : k ≠ "source" := by
    rcases hkc with h | h | h | h | h | h <;> subst h <;> decide
  have hct : ctx.isEmpty = false := by
    cases ctx with
    | nil => exact absurd hv (by simp [dlookup])
    | cons a t => rfl
  have hP : (fun kv : String × PyVal => !isNoneOrEmptyStr kv.2) (k, v) = true :=
    not_none_or_empty hvn hvs
  have henrich : ∀ co : Option CattleRec, dlookup (augment_enrich ctx co) k = some v := by
    intro co
    cases co with
    | none =>
      unfold augment_enrich
      rw [dlookup_dremove_ne ctx hne1, hv]
    | some cobj =>
      obtain ⟨pk, nm, tag, br, ag, milk, vacc⟩ := cobj
      unfold augment_enrich
      cases vacc <;> cases milk <;> simp only [] <;>
        repeat first
          | apply dlookup_dsetdefault_pres
          | rw [dlookup_dinsert_ne _ _ hne2]
          | rw [dlookup_dinsert_ne _ _ hne1]
          | exact hv
  unfold augment_context_with_cattle
  rw [hct]
  simp only [Bool.false_eq_true, if_neg]
  exact dlookup_filter_of_pred (henrich _) hP

/-- A one-animal record store used in concrete instances: pk 5 with breed
"Gir", as in the spec example. -/
def sampleCattleStore : Int → Option CattleRec :=
  fun n => if n == 5 then some ⟨5, "Gauri", "T-101", "Gir", 4, some (mkRat 25 2), Option.none⟩
  else Option.none

/-- Counterexample for C6 as frozen: with a successful lookup (pk 5 resolves),
the caller-supplied `breed` value `""` is not kept — the final prune removes
it, so the key vanishes from the output instead of keeping the caller value. -/
theorem augment_keeps_caller_fields_cex :
    (sampleCattleStore 5).isSome = true ∧
    dlookup [("animal_id", PyVal.int 5), ("breed", PyVal.str "")] "breed"
      = some (PyVal.str "") ∧
    dlookup (augment_context_with_cattle sampleCattleStore
      [("animal_id", PyVal.int 5), ("breed", PyVal.str "")]) "breed" = Option.none :=
  ⟨rfl, rfl, rfl⟩

/-- Witness for C6: caller breed "Jersey" survives although the stored record
says "Gir". -/
theorem augment_keeps_caller_fields_witness :
    dlookup (augment_context_with_cattle sampleCattleStore
      [("animal_id", PyVal.int 5), ("breed", PyVal.str "Jersey")]) "breed"
      = some (PyVal.str "Jersey") :=
  augment_keeps_caller_fields sampleCattleStore _ "breed" (PyVal.str "Jersey")
    (by decide) rfl (fun h => PyVal.noConfusion h) (by simp)

/-! ### Pipeline lemmas -/

theorem addMessage_filter_ne (st : Store) (sid : Nat) (role text loc : String) (x : Nat)
    (hx : x ≠ sid) :
    ((addMessage st sid role text loc).2).messages.filter (fun m => m.sessionId == x)
      = st.messages.filter (fun m => m.sessionId == x) := by
  simp only [addMessage, List.filter_append]
  have h1 : (List.filter (fun m => m.sessionId == x)
      [⟨st.nextMsgId, sid, role, text, loc, 0⟩] : List Msg) = [] := by
    simp [List.filter_cons, beq_eq_false_iff_ne.2 (Ne.symm hx)]
  rw [h1, List.append_nil]

/-- Every branch of the post-persistence pipeline keeps the active-session
pointer. -/
theorem pipeline_active (c : Constants) (env : Env) (st : Store) (session : Session)
    (active : Option Nat) (context : Ctx) (msg : String) (ep : Bool) :
    (pipeline c env st session active context msg ep).active = active := by
  simp only [pipeline]
  repeat' split
  all_goals rfl

/-- No branch of the post-persistence pipeline touches the session table. -/
theorem pipeline_sessions (c : Constants) (env : Env) (st : Store) (session : Session)
    (active : Option Nat) (context : Ctx) (msg : String) (ep : Bool) :
    (pipeline c env st session active context msg ep).store.sessions = st.sessions := by
  simp only [pipeline]
  repeat' split
  all_goals rfl

/-- Every branch of the post-persistence pipeline answers with the current
session id. -/
theorem pipeline_result_sid (c : Constants) (env : Env) (st : Store) (session : Session)
    (active : Option Nat) (context : Ctx) (msg : String) (ep : Bool) :
    resultSessionId (pipeline c env st session active context msg ep).result
      = some session.id := by
  simp only [pipeline]
  repeat' split
  all_goals rfl

/-- The post-persistence pipeline only appends messages belonging to the
current session: messages filtered by any other session id are unchanged. -/
theorem pipeline_filter_ne (c : Constants) (env : Env) (st : Store) (session : Session)
    (active : Option Nat) (context : Ctx) (msg : String) (ep : Bool) (x : Nat)
    (hx : x ≠ session.id) :
    (pipeline c env st session active context msg ep).store.messages.filter
        (fun m => m.sessionId == x)
      = st.messages.filter (fun m => m.sessionId == x) := by
  simp only [pipeline]
  repeat' split
  all_goals first
    | rfl
    | exact addMessage_filter_ne st session.id _ _ _ x hx

/-- A greeting match short-circuits the pipeline: greeting decision, no LLM
call, and the greeting reply as the response text. -/
theorem pipeline_greeting (c : Constants) (env : Env) (st : Store) (session : Session)
    (active : Option Nat) (context : Ctx) (msg : String) (ep : Bool)
    (hg : matches_greeting c (strLower msg) = true) :
    (pipeline c env st session active context msg ep).decision = Decision.greeting ∧
    (pipeline c env st session active context msg ep).groqCalled = false ∧
    ∃ bid, (pipeline c env st session active context msg ep).result
      = ChatResult.reply (greeting_for_context (if !context.isEmpty then context else []))
          bid session.id := by
  simp only [pipeline, hg, if_true]
  exact ⟨by trivial, by trivial, st.nextMsgId, by trivial⟩

/-- A refusal decision of the pipeline always reflects `should_refuse` called
with the flag `has_context OR bovine-term hint`. -/
theorem pipeline_refusal_inv (c : Constants) (env : Env) (st : Store) (session : Session)
    (active : Option Nat) (context : Ctx) (msg : String) (ep : Bool) (reason : String)
    (h : (pipeline c env st session active context msg ep).decision
      = Decision.refusal reason) :
    should_refuse c msg
      (!context.isEmpty || c.BOVINE_CORE_TERMS.any (fun t => strContains (strLower msg) t))
      = some reason := by
  simp only [pipeline] at h
  by_cases hg : matches_greeting c (strLower msg) = true
  · rw [if_pos hg] at h
    exact absurd h (by simp)
  · rw [if_neg hg] at h
    cases hr : should_refuse c msg
        (!context.isEmpty || c.BOVINE_CORE_TERMS.any (fun t => strContains (strLower msg) t)) with
    | none =>
      simp only [hr] at h
      split at h
      · exact absurd h (by simp)
      · split at h
        · exact absurd h (by simp)
        · exact absurd h (by simp)
    | some r =>
      simp only [hr] at h
      have : Decision.refusal r = Decision.refusal reason := h
      injection this with h2
      rw [← h2]

/-- With empty context, no greeting, no refusal, no keyword hit and a failing
embedding pass, the pipeline answers with the fixed scope-narrowing reply and
does not call the LLM. -/
theorem pipeline_scope (c : Constants) (env : Env) (st : Store) (session : Session)
    (active : Option Nat) (msg : String)
    (hg : matches_greeting c (strLower msg) = false)
    (hr : should_refuse c msg
      (c.BOVINE_CORE_TERMS.any (fun t => strContains (strLower msg) t)) = Option.none)
    (hk : keyword_match c (strLower msg) = false) :
    resultText (pipeline c env st session active [] msg false).result = some scope_reply ∧
    (pipeline c env st session active [] msg false).groqCalled = false := by
  simp only [pipeline, List.isEmpty_nil, Bool.not_true, Bool.false_or, hg, hr, hk,
    Bool.or_false, Bool.not_false, if_true, Bool.false_eq_true, if_false]
  exact ⟨by trivial, by trivial⟩

/-! ### Session-resolution and fork lemmas -/

theorem resolveSession_found (st : Store) (uid sid : Nat) (s : Session)
    (hs : s ∈ st.sessions) (hsid : s.id = sid) (huser : s.userId = uid)
    (hnodup : (st.sessions.map (fun x => x.id)).Nodup) :
    resolveSession st uid (some sid) = (s, st, some sid) := by
  have hfind : st.sessions.find? (fun x => x.id == sid && x.userId == uid) = some s := by
    have hex : (st.sessions.find? (fun x => x.id == sid && x.userId == uid)).isSome = true :=
      List.find?_isSome.2 ⟨s, hs, by simp [hsid, huser]⟩
    obtain ⟨s2, hs2⟩ := Option.isSome_iff_exists.1 hex
    have hp := List.find?_some hs2
    have hm := List.mem_of_find?_eq_some hs2
    simp only [Bool.and_eq_true, beq_iff_eq] at hp
    have heq : s2 = s := List.inj_on_of_nodup_map hnodup hm hs (by rw [hp.1, hsid])
    rw [hs2, heq]
  simp [resolveSession, hfind]

theorem applyContext_forks (st : Store) (uid : Nat) (s : Session) (active : Option Nat)
    (incoming : Ctx) (hinc : incoming ≠ []) (hdiff : ctxPyEq s.context incoming = false)
    (hmsgex : ∃ m ∈ st.messages, m.sessionId = s.id) :
    applyContext st uid s active incoming =
      (⟨st.nextSessionId, uid, incoming⟩,
       { st with sessions := st.sessions ++ [⟨st.nextSessionId, uid, incoming⟩],
                 nextSessionId := st.nextSessionId + 1 },
       some st.nextSessionId, incoming) := by
  simp only [applyContext]
  have h1 : (!incoming.isEmpty) = true := by
    cases incoming with
    | nil => exact absurd rfl hinc
    | cons a t => rfl
  have h2 : (!ctxPyEq s.context incoming) = true := by rw [hdiff]; rfl
  have h3 : st.messages.any (fun m => m.sessionId == s.id) = true := by
    obtain ⟨m, hm, he⟩ := hmsgex
    exact List.any_eq_true.2 ⟨m, hm, by simp [he]⟩
  rw [h1, h2, h3]
  simp

/-- With the cattle-context flag set, `should_refuse` can only answer
`self_harm` or nothing: violence and human-health checks are skipped. -/
theorem should_refuse_true_cases (c : Constants) (m : String) :
    should_refuse c m true = some "self_harm" ∨ should_refuse c m true = Option.none := by
  unfold should_refuse
  by_cases h : (c.SELF_HARM_TERMS.any fun t => strContains (strLower m) t) = true
  · left; simp [h]
  · right; simp [h]

/-- `applyContext` with empty incoming context resolves to the session context
and changes nothing. -/
theorem applyContext_empty (st : Store) (uid : Nat) (s : Session) (active : Option Nat) :
    applyContext st uid s active [] = (s, st, active, s.context) := by
  simp [applyContext]

/-- Past the guards, `chat_api` is the pipeline applied to the resolved
session, the fork result and the embedding verdict. -/
theorem chat_api_unfold_guards (c : Constants) (env : Env) (st : Store) (req : Request)
    (hmsg : pyStrip req.message ≠ "") (hfarm : req.isFarmer = true) :
    chat_api c env st req =
      (let r1 := resolveSession st req.userId req.activeSessionId
       let incoming := augment_context_with_cattle env.cattle (normalise_context req.context)
       let r2 := applyContext r1.2.1 req.userId r1.1 r1.2.2 incoming
       let embedding_pass :=
         if env.embedAvailable then
           if env.embedCallFails then false
           else (is_cattle_related env.score env.threshold (pyStrip req.message)).1
         else false
       let st3 := (addMessage r2.2.1 r2.1.id "user" (pyStrip req.message) env.location).2
       pipeline c env st3 r2.1 r2.2.2.1 r2.2.2.2 (pyStrip req.message) embedding_pass) := by
  unfold chat_api
  rw [if_neg hmsg, hfarm]
  rfl

/-- C7: a message matching the greeting pattern always gets the greeting reply
— refusal checks (self-harm included), the scope gate and the LLM call are all
bypassed. -/
theorem chat_api_greeting_precedence (c : Constants) (env : Env) (st : Store) (req : Request)
    (hmsg : pyStrip req.message ≠ "") (hfarm : req.isFarmer = true)
    (hgreet : matches_greeting c (strLower (pyStrip req.message)) = true) :
    (chat_api c env st req).decision = Decision.greeting ∧
    (chat_api c env st req).groqCalled = false ∧
    ∃ g bid sid, (chat_api c env st req).result
      = ChatResult.reply (greeting_for_context g) bid sid := by
  rw [chat_api_unfold_guards c env st req hmsg hfarm]
  obtain ⟨h1, h2, bid, h3⟩ := pipeline_greeting c env _ _ _ _ (pyStrip req.message) _ hgreet
  exact ⟨h1, h2, _, bid, _, h3⟩

/-- Witness for C7: "  HELLO there  " (with a self-harm term appended) still
greets and never reaches the LLM. -/
def sampleEnv : Env := {
  cattle := sampleCattleStore
  embedAvailable := false
  embedCallFails := false
  score := fun _ => mkRat 0 1
  threshold := mkRat 13 20
  location := "India"
  groq := ⟨Option.none, some "config_missing"⟩ }

theorem chat_api_greeting_precedence_witness :
    (chat_api sampleConstants sampleEnv ⟨[], [], 1, 1⟩
        ⟨7, true, " HELLO, I want to end my life ", PyVal.none, Option.none⟩).decision
      = Decision.greeting ∧
    (chat_api sampleConstants sampleEnv ⟨[], [], 1, 1⟩
        ⟨7, true, " HELLO, I want to end my life ", PyVal.none, Option.none⟩).groqCalled
      = false ∧
    ∃ g bid sid,
      (chat_api sampleConstants sampleEnv ⟨[], [], 1, 1⟩
          ⟨7, true, " HELLO, I want to end my life ", PyVal.none, Option.none⟩).result
        = ChatResult.reply (greeting_for_context g) bid sid :=
  chat_api_greeting_precedence sampleConstants sampleEnv _ _ (by decide) rfl (by decide)

/-- C9: the flag handed to `should_refuse` is `has_context OR bovine-hint`,
so a bovine core term anywhere in the message suppresses the violence and
human-health refusals — whatever the session context is, only `self_harm` can
still be refused. -/
theorem chat_api_bovine_hint_suppresses (c : Constants) (env : Env) (st : Store)
    (req : Request) (term : String) (hmem : term ∈ c.BOVINE_CORE_TERMS)
    (hsub : strContains (strLower (pyStrip req.message)) term = true) :
    ∀ reason, (chat_api c env st req).decision = Decision.refusal reason →
      reason = "self_harm" := by
  intro reason h
  by_cases hmsg : pyStrip req.message = ""
  · unfold chat_api at h
    rw [if_pos hmsg] at h
    exact absurd h (by simp)
  · by_cases hfarm : req.isFarmer = true
    · rw [chat_api_unfold_guards c env st req hmsg hfarm] at h
      have hs := pipeline_refusal_inv c env _ _ _ _ _ _ reason h
      have hb : (c.BOVINE_CORE_TERMS.any fun t =>
          strContains (strLower (pyStrip req.message)) t) = true :=
        List.any_eq_true.2 ⟨term, hmem, hsub⟩
      rw [hb, Bool.or_true] at hs
      rcases should_refuse_true_cases c (pyStrip req.message) with hc | hc
      · rw [hc] at hs
        injection hs with h2
        exact h2.symm
      · rw [hc] at hs
        cases hs
    · unfold chat_api at h
      rw [if_neg hmsg, show req.isFarmer = false from by
        cases hf : req.isFarmer
        · rfl
        · exact absurd hf hfarm] at h
      exact absurd h (by simp)

/-- Witness for C9: "kill" is a violence term, but "my cow" is present, so the
request is not refused at all (it flows on to the scope gate). -/
theorem chat_api_bovine_hint_suppresses_witness :
    (∀ reason,
      (chat_api sampleConstants sampleEnv ⟨[], [], 1, 1⟩
          ⟨7, true, "how to kill ticks on my cow", PyVal.none, Option.none⟩).decision
        = Decision.refusal reason → reason = "self_harm") ∧
    (chat_api sampleConstants sampleEnv ⟨[], [], 1, 1⟩
        ⟨7, true, "how to kill ticks on my cow", PyVal.none, Option.none⟩).decision
      = Decision.llm :=
  ⟨chat_api_bovine_hint_suppresses sampleConstants sampleEnv _ _ "cow" (by decide) (by decide),
   rfl⟩

/-- C2 (amended): a non-empty, non-greeting, non-refused message with empty
resolved context, no cattle-keyword hit, and a below-threshold semantic score
(or an unavailable/failing classifier) gets the fixed scope-narrowing reply,
and the LLM client is never invoked. -/
theorem chat_api_scope_gate (c : Constants) (env : Env) (st : Store) (req : Request)
    (hmsg : pyStrip req.message ≠ "") (hfarm : req.isFarmer = true)
    (hinc : augment_context_with_cattle env.cattle (normalise_context req.context) = [])
    (hctx : (resolveSession st req.userId req.activeSessionId).1.context = [])
    (hgreet : matches_greeting c (strLower (pyStrip req.message)) = false)
    (hrefuse : should_refuse c (pyStrip req.message)
      (c.BOVINE_CORE_TERMS.any fun t => strContains (strLower (pyStrip req.message)) t)
      = Option.none)
    (hkw : keyword_match c (strLower (pyStrip req.message)) = false)
    (hembed : env.embedAvailable = false ∨ env.embedCallFails = true
      ∨ env.score (pyStrip req.message) < env.threshold) :
    resultText (chat_api c env st req).result = some scope_reply ∧
    (chat_api c env st req).groqCalled = false := by
  have hep : (if env.embedAvailable then
      (if env.embedCallFails then false
       else (is_cattle_related env.score env.threshold (pyStrip req.message)).1)
      else false) = false := by
    rcases hembed with h | h | h
    · rw [h]; rfl
    · rw [h]; cases env.embedAvailable <;> rfl
    · have hval : (is_cattle_related env.score env.threshold (pyStrip req.message)).1
          = false := by
        unfold is_cattle_related
        rw [if_neg hmsg]
        exact decide_eq_false (not_le.2 h)
      cases env.embedAvailable
      · rfl
      · cases env.embedCallFails
        · exact hval
        · rfl
  rw [chat_api_unfold_guards c env st req hmsg hfarm]
  simp only [hinc, applyContext_empty, hep, hctx]
  exact pipeline_scope c env _ _ _ (pyStrip req.message) hgreet hrefuse hkw

/-- Witness for C2 (amended): "tell me a story" on a fresh store is answered
with the scope-narrowing reply and no LLM call. -/
theorem chat_api_scope_gate_witness :
    resultText (chat_api sampleConstants sampleEnv ⟨[], [], 1, 1⟩
        ⟨7, true, "tell me a story", PyVal.none, Option.none⟩).result = some scope_reply ∧
    (chat_api sampleConstants sampleEnv ⟨[], [], 1, 1⟩
        ⟨7, true, "tell me a story", PyVal.none, Option.none⟩).groqCalled = false :=
  chat_api_scope_gate sampleConstants sampleEnv _ _ (by decide) rfl rfl rfl
    (by decide) (by decide) (by decide) (Or.inl rfl)

/-- Counterexample for C2 as frozen: "hello" meets every condition of the
claim — non-empty, not refused, empty resolved context, no keyword hit,
classifier unavailable — yet the pipeline returns the greeting reply, not the
scope-narrowing reply, because greeting detection runs first.  (The greeting
pattern of the missing constants module is modelled from the spec as matching
"hello".) -/
theorem chat_api_scope_gate_cex :
    pyStrip "hello" ≠ "" ∧
    should_refuse sampleConstants "hello"
      (sampleConstants.BOVINE_CORE_TERMS.any fun t => strContains (strLower "hello") t)
      = Option.none ∧
    augment_context_with_cattle sampleEnv.cattle (normalise_context PyVal.none) = [] ∧
    (resolveSession ⟨[], [], 1, 1⟩ 7 Option.none).1.context = [] ∧
    keyword_match sampleConstants (strLower "hello") = false ∧
    sampleEnv.embedAvailable = false ∧
    (chat_api sampleConstants sampleEnv ⟨[], [], 1, 1⟩
        ⟨7, true, "hello", PyVal.none, Option.none⟩).groqCalled = false ∧
    (chat_api sampleConstants sampleEnv ⟨[], [], 1, 1⟩
        ⟨7, true, "hello", PyVal.none, Option.none⟩).decision = Decision.greeting ∧
    resultText (chat_api sampleConstants sampleEnv ⟨[], [], 1, 1⟩
        ⟨7, true, "hello", PyVal.none, Option.none⟩).result ≠ some scope_reply :=
  ⟨by decide, by decide, rfl, rfl, by decide, rfl, by decide, rfl, by decide⟩

/-- C4: once a session has a message, a request carrying a non-empty
normalised+enriched context that differs (Python `==`) from the session
context forks: the response and the active-session pointer carry a fresh
session id, the new session stores the incoming context, and the old session —
its context and its messages — is left untouched. -/
theorem chat_api_context_change_forks (c : Constants) (env : Env) (st : Store)
    (req : Request) (sid : Nat) (s : Session)
    (hmsg : pyStrip req.message ≠ "") (hfarm : req.isFarmer = true)
    (hactive : req.activeSessionId = some sid)
    (hs : s ∈ st.sessions) (hsid : s.id = sid) (huser : s.userId = req.userId)
    (hnodup : (st.sessions.map (fun x => x.id)).Nodup)
    (hbound : ∀ x ∈ st.sessions, x.id < st.nextSessionId)
    (hmsgex : ∃ m ∈ st.messages, m.sessionId = s.id)
    (hinc : augment_context_with_cattle env.cattle (normalise_context req.context) ≠ [])
    (hdiff : ctxPyEq s.context
      (augment_context_with_cattle env.cattle (normalise_context req.context)) = false) :
    (chat_api c env st req).active = some st.nextSessionId ∧
    st.nextSessionId ≠ sid ∧
    (⟨st.nextSessionId, req.userId,
       augment_context_with_cattle env.cattle (normalise_context req.context)⟩ : Session)
      ∈ (chat_api c env st req).store.sessions ∧
    s ∈ (chat_api c env st req).store.sessions ∧
    resultSessionId (chat_api c env st req).result = some st.nextSessionId ∧
    (chat_api c env st req).store.messages.filter (fun m => m.sessionId == sid)
      = st.messages.filter (fun m => m.sessionId == sid) := by
  have hlt : sid < st.nextSessionId := hsid ▸ hbound s hs
  have hne : st.nextSessionId ≠ sid := by omega
  have hxne : sid ≠ st.nextSessionId := by omega
  have hres : resolveSession st req.userId req.activeSessionId = (s, st, some sid) := by
    rw [hactive]
    exact resolveSession_found st req.userId sid s hs hsid huser hnodup
  have happ := applyContext_forks st req.userId s (some sid)
    (augment_context_with_cattle env.cattle (normalise_context req.context)) hinc hdiff hmsgex
  rw [chat_api_unfold_guards c env st req hmsg hfarm]
  simp only [hres, happ]
  refine ⟨pipeline_active c env _ _ _ _ _ _, hne, ?_, ?_,
    pipeline_result_sid c env _ _ _ _ _ _, ?_⟩
  · rw [pipeline_sessions]
    simp [addMessage]
  · rw [pipeline_sessions]
    simp [addMessage, hs]
  · rw [pipeline_filter_ne c env _ _ _ _ _ _ sid hxne,
        addMessage_filter_ne _ _ _ _ _ sid hxne]

/-- Witness for C4: session 1 (user 7) has a message and context
`{issue: Feeding}`; a request with context `{breed: Jersey}` forks to
session 2 and leaves session 1 alone. -/
theorem chat_api_context_change_forks_witness :
    (chat_api sampleConstants sampleEnv
        ⟨[⟨1, 7, [("issue", .str "Feeding"), ("source", .str "manual")]⟩],
         [⟨1, 1, "user", "hi", "India", 0⟩], 2, 2⟩
        ⟨7, true, "need cattle advice", .dict [("breed", .str "Jersey")], some 1⟩).active
      = some 2 ∧
    (2 : Nat) ≠ 1 ∧
    (⟨2, 7, augment_context_with_cattle sampleEnv.cattle
        (normalise_context (.dict [("breed", .str "Jersey")]))⟩ : Session)
      ∈ (chat_api sampleConstants sampleEnv
        ⟨[⟨1, 7, [("issue", .str "Feeding"), ("source", .str "manual")]⟩],
         [⟨1, 1, "user", "hi", "India", 0⟩], 2, 2⟩
        ⟨7, true, "need cattle advice", .dict [("breed", .str "Jersey")], some 1⟩).store.sessions ∧
    (⟨1, 7, [("issue", .str "Feeding"), ("source", .str "manual")]⟩ : Session)
      ∈ (chat_api sampleConstants sampleEnv
        ⟨[⟨1, 7, [("issue", .str "Feeding"), ("source", .str "manual")]⟩],
         [⟨1, 1, "user", "hi", "India", 0⟩], 2, 2⟩
        ⟨7, true, "need cattle advice", .dict [("breed", .str "Jersey")], some 1⟩).store.sessions ∧
    resultSessionId (chat_api sampleConstants sampleEnv
        ⟨[⟨1, 7, [("issue", .str "Feeding"), ("source", .str "manual")]⟩],
         [⟨1, 1, "user", "hi", "India", 0⟩], 2, 2⟩
        ⟨7, true, "need cattle advice", .dict [("breed", .str "Jersey")], some 1⟩).result
      = some 2 ∧
    (chat_api sampleConstants sampleEnv
        ⟨[⟨1, 7, [("issue", .str "Feeding"), ("source", .str "manual")]⟩],
         [⟨1, 1, "user", "hi", "India", 0⟩], 2, 2⟩
        ⟨7, true, "need cattle advice", .dict [("breed", .str "Jersey")], some 1⟩).store.messages.filter
        (fun m => m.sessionId == 1)
      = ([⟨1, 1, "user", "hi", "India", 0⟩] : List Msg).filter (fun m => m.sessionId == 1) :=
  chat_api_context_change_forks sampleConstants sampleEnv _ _ 1
    ⟨1, 7, [("issue", .str "Feeding"), ("source", .str "manual")]⟩
    (by decide) rfl rfl (List.mem_singleton.2 rfl) rfl rfl (by simp)
    (by intro x hx; rw [List.mem_singleton] at hx; subst hx; decide)
    ⟨⟨1, 1, "user", "hi", "India", 0⟩, List.mem_singleton.2 rfl, rfl⟩
    (fun h => List.noConfusion h) (by decide)

/-! ### Idempotence of `normalise_context` (C3): string and rounding lemmas -/

theorem dropWhile_dropWhile (p : Char → Bool) (l : List Char) :
    List.dropWhile p (List.dropWhile p l) = List.dropWhile p l := by
  induction l with
  | nil => rfl
  | cons a t ih =>
    rw [List.dropWhile_cons]
    by_cases h : p a = true
    · rw [if_pos h]; exact ih
    · rw [if_neg h, List.dropWhile_cons, if_neg h]

theorem dropTrailWhile_eq_nil_iff (p : Char → Bool) (l : List Char) :
    dropTrailWhile p l = [] ↔ ∀ x ∈ l, p x = true := by
  induction l with
  | nil => simp [dropTrailWhile]
  | cons a t ih =>
    simp only [dropTrailWhile, List.mem_cons]
    by_cases h : (dropTrailWhile p t).isEmpty && p a
    · rw [if_pos h]
      simp only [Bool.and_eq_true, List.isEmpty_iff] at h
      constructor
      · intro _ x hx
        rcases hx with hx | hx
        · rw [hx]; exact h.2
        · exact (ih.1 h.1) x hx
      · intro _; rfl
    · rw [if_neg h]
      simp only [Bool.and_eq_true, List.isEmpty_iff] at h
      constructor
      · intro hc; exact absurd hc (by simp)
      · intro hall
        exact absurd ⟨ih.2 (fun x hx => hall x (Or.inr hx)), hall a (Or.inl rfl)⟩ h

theorem dropWhile_eq_nil_of_all (p : Char → Bool) (l : List Char)
    (h : ∀ x ∈ l, p x = true) : List.dropWhile p l = [] := by
  induction l with
  | nil => rfl
  | cons a t ih =>
    rw [List.dropWhile_cons, if_pos (h a (List.mem_cons_self a t))]
    exact ih (fun x hx => h x (List.mem_cons_of_mem a hx))

theorem dropTrailWhile_dropTrailWhile (p : Char → Bool) (l : List Char) :
    dropTrailWhile p (dropTrailWhile p l) = dropTrailWhile p l := by
  induction l with
  | nil => rfl
  | cons a t ih =>
    simp only [dropTrailWhile]
    by_cases h : (dropTrailWhile p t).isEmpty && p a
    · rw [if_pos h]; rfl
    · rw [if_neg h]
      simp only [dropTrailWhile, ih, if_neg h]

theorem dropWhile_dropTrailWhile_comm (p : Char → Bool) (l : List Char) :
    List.dropWhile p (dropTrailWhile p l) = dropTrailWhile p (List.dropWhile p l) := by
  induction l with
  | nil => rfl
  | cons a t ih =>
    simp only [dropTrailWhile]
    by_cases h : ((dropTrailWhile p t).isEmpty && p a) = true
    · rw [if_pos h]
      simp only [Bool.and_eq_true, List.isEmpty_iff] at h
      rw [List.dropWhile_nil, List.dropWhile_cons, if_pos h.2]
      have hall : ∀ x ∈ t, p x = true := (dropTrailWhile_eq_nil_iff p t).1 h.1
      rw [dropWhile_eq_nil_of_all p t hall]
      rfl
    · rw [if_neg h]
      by_cases hp : p a = true
      · rw [List.dropWhile_cons, List.dropWhile_cons, if_pos hp, if_pos hp]
        exact ih
      · rw [List.dropWhile_cons, List.dropWhile_cons, if_neg hp, if_neg hp]
        simp only [dropTrailWhile]
        rw [if_neg h]

/-- `str.strip()` is idempotent. -/
theorem stripChars_idem (l : List Char) : stripChars (stripChars l) = stripChars l := by
  unfold stripChars
  rw [dropWhile_dropTrailWhile_comm, dropWhile_dropWhile, dropTrailWhile_dropTrailWhile]

theorem pyStrip_idem (s : String) : pyStrip (pyStrip s) = pyStrip s := by
  unfold pyStrip
  rw [show (String.mk (stripChars s.data)).data = stripChars s.data from rfl,
    stripChars_idem]

/-- Rounding to two decimals is exact on values that already have at most two
decimals. -/
theorem roundHalfEven100_mkRat100 (m : Int) : roundHalfEven100 (mkRat m 100) = m := by
  set q := mkRat m 100 with hq
  have hden : (q.den : Int) ≠ 0 := by
    exact_mod_cast q.den_nz
  have hcross : q.num * 100 = m * (q.den : Int) := by
    have h1 : (q.num : Rat) / (q.den : Rat) = (m : Rat) / (100 : Rat) := by
      rw [Rat.num_div_den, hq, Rat.mkRat_eq_div]
      norm_num
    have h2 : (q.num : Rat) * 100 = (m : Rat) * (q.den : Rat) := by
      field_simp at h1
      linarith
    exact_mod_cast h2
  simp only [roundHalfEven100]
  rw [hcross, Int.mul_fdiv_cancel m hden]
  have hr : 2 * (m * (q.den : Int) - m * (q.den : Int)) = 0 := by ring
  rw [hr]
  have hpos : (0 : Int) < (q.den : Int) := by exact_mod_cast q.pos
  rw [if_pos hpos]

/-- `round(·, 2)` is idempotent. -/
theorem round2_idem (q : Rat) : round2 (round2 q) = round2 q := by
  unfold round2
  rw [roundHalfEven100_mkRat100]

theorem pyEq_refl_int (n : Int) : pyEq (.int n) (.int n) = true := by
  simp [pyEq, pyNumVal]

theorem pyEq_refl_float (q : Rat) : pyEq (.float q) (.float q) = true := by
  simp [pyEq, pyNumVal]

theorem pyEq_refl_bool (b : Bool) : pyEq (.bool b) (.bool b) = true := by
  simp [pyEq, pyNumVal]

theorem pyEq_refl_str (s : String) : pyEq (.str s) (.str s) = true := by
  simp [pyEq, pyNumVal, pyBeq]

theorem pyEq_refl_num {v : PyVal} (h : isPyNumber v = true) : pyEq v v = true := by
  cases v with
  | int n => exact pyEq_refl_int n
  | float q => exact pyEq_refl_float q
  | bool b => exact pyEq_refl_bool b
  | none => cases h
  | str s => cases h
  | list xs => cases h
  | dict l => cases h

/-- An integer-valued float equals its integer image under Python `==`. -/
theorem pyEq_int_float {q : Rat} (hden : q.den = 1) :
    pyEq (.int q.num) (.float q) = true ∧ pyEq (.float q) (.int q.num) = true := by
  have h : mkRat q.num 1 = q := by
    rw [Rat.mkRat_one]
    exact Rat.coe_int_num_of_den_eq_one hden
  constructor <;> simp [pyEq, pyNumVal, h]

/-- The values stored by `normalise_context` are stable under a second pass:
re-normalising a stored (non-empty-string) value succeeds and returns a value
that is Python-`==` to it. -/
theorem normEntry_stable {k : String} {v0 v : PyVal}
    (h : normEntry k v0 = some v) (hne : v ≠ .str "") :
    ∃ w, normEntry k v = some w ∧ pyEq w v = true ∧ pyEq v w = true := by
  unfold normEntry at h
  by_cases hcond : ((!(allowed_keys.contains k)) || isNoneOrEmptyStr v0) = true
  · rw [if_pos hcond] at h; cases h
  · rw [if_neg hcond] at h
    have hal : allowed_keys.contains k = true := by
      by_contra hc
      simp only [Bool.not_eq_true] at hc
      exact hcond (by rw [hc]; rfl)
    by_cases hnum : numeric_keys.contains k = true
    · rw [if_pos hnum] at h
      cases hq : pyFloat v0 with
      | none => rw [hq] at h; cases h
      | some q =>
        simp only [hq] at h
        by_cases hden : q.den = 1
        · rw [if_pos hden] at h
          injection h with hv
          subst hv
          refine ⟨.int q.num, ?_, pyEq_refl_int _, pyEq_refl_int _⟩
          unfold normEntry
          rw [if_neg (show ¬(((!(allowed_keys.contains k))
              || isNoneOrEmptyStr (.int q.num)) = true) from by rw [hal]; simp [isNoneOrEmptyStr])]
          rw [if_pos hnum]
          simp [pyFloat, Rat.mkRat_one, Rat.den_intCast, Rat.num_intCast]
        · rw [if_neg hden] at h
          injection h with hv
          subst hv
          by_cases hd2 : (round2 q).den = 1
          · refine ⟨.int (round2 q).num, ?_, (pyEq_int_float hd2).1, (pyEq_int_float hd2).2⟩
            unfold normEntry
            rw [if_neg (show ¬(((!(allowed_keys.contains k))
                || isNoneOrEmptyStr (.float (round2 q))) = true) from by
                rw [hal]; simp [isNoneOrEmptyStr])]
            rw [if_pos hnum]
            simp [pyFloat, hd2]
          · refine ⟨.float (round2 q), ?_, pyEq_refl_float _, pyEq_refl_float _⟩
            unfold normEntry
            rw [if_neg (show ¬(((!(allowed_keys.contains k))
                || isNoneOrEmptyStr (.float (round2 q))) = true) from by
                rw [hal]; simp [isNoneOrEmptyStr])]
            rw [if_pos hnum]
            simp [pyFloat, hd2, round2_idem]
    · by_cases hbool : boolean_keys.contains k = true
      · rw [if_neg hnum, if_pos hbool] at h
        have hb : ∃ b, v = .bool b := by
          cases v0 <;> exact ⟨_, (Option.some.injEq _ _ ▸ h).symm⟩
        obtain ⟨b, hv⟩ := hb
        subst hv
        refine ⟨.bool b, ?_, pyEq_refl_bool _, pyEq_refl_bool _⟩
        unfold normEntry
        rw [if_neg (show ¬(((!(allowed_keys.contains k))
            || isNoneOrEmptyStr (.bool b)) = true) from by rw [hal]; simp [isNoneOrEmptyStr])]
        rw [if_neg hnum, if_pos hbool]
      · by_cases hpn : isPyNumber v0 = true
        · rw [if_neg hnum, if_neg hbool, if_pos hpn] at h
          injection h with hv
          subst hv
          refine ⟨v0, ?_, pyEq_refl_num hpn, pyEq_refl_num hpn⟩
          unfold normEntry
          rw [if_neg (show ¬(((!(allowed_keys.contains k))
              || isNoneOrEmptyStr v0) = true) from hcond)]
          rw [if_neg hnum, if_neg hbool, if_pos hpn]
        · rw [if_neg hnum, if_neg hbool, if_neg hpn] at h
          injection h with hv
          subst hv
          have hsne : pyStrip (pyStr v0) ≠ "" := by
            intro hc
            exact hne (by rw [hc])
          refine ⟨.str (pyStrip (pyStr v0)), ?_, pyEq_refl_str _, pyEq_refl_str _⟩
          unfold normEntry
          rw [if_neg (show ¬(((!(allowed_keys.contains k))
              || isNoneOrEmptyStr (.str (pyStrip (pyStr v0)))) = true) from by
              rw [hal]
              simp only [isNoneOrEmptyStr, Bool.not_true, Bool.false_or]
              simp [hsne])]
          rw [if_neg hnum, if_neg hbool]
          rw [if_neg (show ¬(isPyNumber (.str (pyStrip (pyStr v0))) = true) from by
            simp [isPyNumber])]
          rw [show pyStr (.str (pyStrip (pyStr v0))) = pyStrip (pyStr v0) from rfl]
          rw [pyStrip_idem]

/-- A pair is a possible output of the `normalise_context` loop. -/
def GoodEntry (kv : String × PyVal) : Prop := ∃ v0, normEntry kv.1 v0 = some kv.2

theorem dinsert_good {d : Ctx} {k : String} {v : PyVal}
    (hd : ∀ kv ∈ d, GoodEntry kv) (hv : ∃ v0, normEntry k v0 = some v) :
    ∀ kv ∈ dinsert d k v, GoodEntry kv := by
  intro kv hkv
  unfold dinsert at hkv
  by_cases hx : d.any (fun kv => kv.1 == k) = true
  · rw [if_pos hx] at hkv
    obtain ⟨kv0, hkv0, hmap⟩ := List.mem_map.1 hkv
    by_cases hk : (kv0.1 == k) = true
    · rw [if_pos hk] at hmap
      subst hmap
      exact hv
    · rw [if_neg hk] at hmap
      subst hmap
      exact hd kv0 hkv0
  · rw [if_neg hx] at hkv
    rcases List.mem_append.1 hkv with hm | hm
    · exact hd kv hm
    · rw [List.mem_singleton] at hm
      subst hm
      exact hv

theorem foldl_normStep_good (entries : List (String × PyVal)) :
    ∀ acc : Ctx, (∀ kv ∈ acc, GoodEntry kv) →
      ∀ kv ∈ entries.foldl normStep acc, GoodEntry kv := by
  induction entries with
  | nil => intro acc hacc kv hkv; exact hacc kv hkv
  | cons e t ih =>
    intro acc hacc kv hkv
    rw [List.foldl_cons] at hkv
    cases he : normEntry e.1 e.2 with
    | none =>
      rw [show normStep acc e = acc from by unfold normStep; rw [he]] at hkv
      exact ih acc hacc kv hkv
    | some v =>
      rw [show normStep acc e = dinsert acc e.1 v from by unfold normStep; rw [he]] at hkv
      exact ih _ (dinsert_good hacc ⟨e.2, he⟩) kv hkv

theorem mapUpd_keys (d : Ctx) (k : String) (v : PyVal) :
    (d.map (fun kv => if kv.1 == k then (k, v) else kv)).map Prod.fst
      = d.map Prod.fst := by
  induction d with
  | nil => rfl
  | cons a t ih =>
    simp only [List.map_cons, ih]
    by_cases hk : (a.1 == k) = true
    · rw [if_pos hk]
      have h2 : a.1 = k := by simpa using hk
      rw [h2]
    · rw [if_neg hk]

theorem notmem_of_any_false {d : Ctx} {k : String}
    (hx : d.any (fun kv => kv.1 == k) = false) : k ∉ d.map Prod.fst := by
  intro hmem
  obtain ⟨kv, hkv, hfst⟩ := List.mem_map.1 hmem
  have hc : d.any (fun kv => kv.1 == k) = true :=
    List.any_eq_true.2 ⟨kv, hkv, by simp [hfst]⟩
  rw [hx] at hc
  cases hc

theorem foldl_normStep_keys_nodup (entries : List (String × PyVal)) :
    ∀ acc : Ctx, (acc.map Prod.fst).Nodup →
      ((entries.foldl normStep acc).map Prod.fst).Nodup := by
  induction entries with
  | nil => intro acc h; exact h
  | cons e t ih =>
    intro acc hacc
    rw [List.foldl_cons]
    cases he : normEntry e.1 e.2 with
    | none =>
      rw [show normStep acc e = acc from by unfold normStep; rw [he]]
      exact ih acc hacc
    | some v =>
      rw [show normStep acc e = dinsert acc e.1 v from by unfold normStep; rw [he]]
      apply ih
      by_cases hx : acc.any (fun kv => kv.1 == e.1) = true
      · rw [show dinsert acc e.1 v
            = acc.map (fun kv => if kv.1 == e.1 then (e.1, v) else kv) from by
          unfold dinsert; rw [if_pos hx]]
        rw [mapUpd_keys]
        exact hacc
      · rw [Bool.not_eq_true] at hx
        rw [show dinsert acc e.1 v = acc ++ [(e.1, v)] from by unfold dinsert; rw [hx]; rfl]
        rw [List.map_append, List.nodup_append]
        refine ⟨hacc, by simp, ?_⟩
        intro a ha hb
        simp only [List.map_cons, List.map_nil, List.mem_singleton] at hb
        subst hb
        exact notmem_of_any_false hx ha

theorem foldl_normStep_eq_map (l : List (String × PyVal)) :
    ∀ acc : Ctx, (∀ kv ∈ l, (normEntry kv.1 kv.2).isSome = true) →
      (((acc ++ l).map Prod.fst).Nodup) →
      l.foldl normStep acc
        = acc ++ l.map (fun kv => (kv.1, (normEntry kv.1 kv.2).getD PyVal.none)) := by
  induction l with
  | nil => intro acc _ _; simp
  | cons e t ih =>
    intro acc hsome hnodup
    obtain ⟨w, hw⟩ := Option.isSome_iff_exists.1 (hsome e (List.mem_cons_self e t))
    rw [List.foldl_cons]
    have hnotin : e.1 ∉ acc.map Prod.fst := by
      intro hin
      rw [List.map_append, List.nodup_append] at hnodup
      exact hnodup.2.2 hin (by simp)
    have hany : acc.any (fun kv => kv.1 == e.1) = false := by
      rw [← Bool.not_eq_true]
      intro hc
      obtain ⟨kv, hkv, hb⟩ := List.any_eq_true.1 hc
      exact hnotin (List.mem_map.2 ⟨kv, hkv, by simpa using hb⟩)
    rw [show normStep acc e = acc ++ [(e.1, w)] from by
      unfold normStep
      rw [hw]
      unfold dinsert
      rw [hany]
      rfl]
    rw [ih (acc ++ [(e.1, w)]) (fun kv hkv => hsome kv (List.mem_cons_of_mem e hkv))
      (by
        have hkeys : ((acc ++ [(e.1, w)] ++ t).map Prod.fst)
            = ((acc ++ e :: t).map Prod.fst) := by
          simp [List.map_append]
        rw [hkeys]
        exact hnodup)]
    rw [List.append_assoc]
    congr 1
    rw [List.map_cons, hw]
    rfl

theorem dlookup_of_mem_nodup {d : Ctx} {k : String} {v : PyVal}
    (hnodup : (d.map Prod.fst).Nodup) (hmem : (k, v) ∈ d) : dlookup d k = some v := by
  induction d with
  | nil => cases hmem
  | cons a t ih =>
    rw [dlookup_cons]
    rcases List.mem_cons.1 hmem with he | hm
    · rw [← he]
      simp
    · by_cases hk : (a.1 == k) = true
      · exfalso
        have hak : a.1 = k := by simpa using hk
        rw [List.map_cons, List.nodup_cons] at hnodup
        exact hnodup.1 (hak ▸ List.mem_map.2 ⟨(k, v), hm, rfl⟩)
      · rw [if_neg hk]
        exact ih (by rw [List.map_cons, List.nodup_cons] at hnodup; exact hnodup.2) hm

theorem dlookup_isSome_iff {d : Ctx} {k : String} :
    (dlookup d k).isSome = true ↔ k ∈ d.map Prod.fst := by
  induction d with
  | nil => simp [dlookup]
  | cons a t ih =>
    rw [dlookup_cons]
    by_cases hk : (a.1 == k) = true
    · rw [if_pos hk]
      have hak : a.1 = k := by simpa using hk
      simp [hak]
    · rw [if_neg hk]
      rw [ih]
      simp only [List.map_cons, List.mem_cons]
      constructor
      · exact Or.inr
      · rintro (he | hm)
        · exact absurd (by simp [he] : (a.1 == k) = true) hk
        · exact hm

theorem mapValues_keys (l : Ctx) (g : String × PyVal → PyVal) :
    ((l.map (fun kv => (kv.1, g kv))).map Prod.fst) = l.map Prod.fst := by
  induction l with
  | nil => rfl
  | cons a t ih => simp only [List.map_cons, ih]

/-- Pointwise Python-equal values over the same (duplicate-free) keys give
Python-equal dicts. -/
theorem ctxPyEq_of_pointwise {l : Ctx} {g : String × PyVal → PyVal}
    (hnodup : (l.map Prod.fst).Nodup)
    (hpt : ∀ kv ∈ l, pyEq (g kv) kv.2 = true ∧ pyEq kv.2 (g kv) = true) :
    ctxPyEq (l.map (fun kv => (kv.1, g kv))) l = true := by
  have hnodup2 : ((l.map (fun kv => (kv.1, g kv))).map Prod.fst).Nodup := by
    rw [mapValues_keys]
    exact hnodup
  unfold ctxPyEq
  rw [Bool.and_eq_true]
  constructor
  · rw [List.all_eq_true]
    intro kv' hkv'
    obtain ⟨kv, hkv, hmap⟩ := List.mem_map.1 hkv'
    subst hmap
    rw [show dlookup l kv.1 = some kv.2 from dlookup_of_mem_nodup hnodup
      (by rw [show (kv.1, kv.2) = kv from rfl]; exact hkv)]
    exact (hpt kv hkv).1
  · rw [List.all_eq_true]
    intro kv hkv
    rw [show dlookup (l.map (fun kv => (kv.1, g kv))) kv.1 = some (g kv) from
      dlookup_of_mem_nodup hnodup2 (List.mem_map.2 ⟨kv, hkv, rfl⟩)]
    exact (hpt kv hkv).2

theorem normalise_dict_def (entries : List (String × PyVal)) :
    normalise_context (.dict entries)
      = (let cleaned := entries.foldl normStep []
         if !cleaned.isEmpty && !(dlookup cleaned "source").isSome then
           cleaned ++ [("source", .str "manual")]
         else cleaned) := rfl

/-- The keys of a normalised context are duplicate-free. -/
theorem normalise_keys_nodup (x : PyVal) :
    ((normalise_context x).map Prod.fst).Nodup := by
  cases x with
  | dict entries =>
    rw [normalise_dict_def]
    have hclean := foldl_normStep_keys_nodup entries [] (by simp)
    by_cases hcond : (!(entries.foldl normStep []).isEmpty
        && !(dlookup (entries.foldl normStep []) "source").isSome) = true
    · simp only [hcond, if_true]
      rw [List.map_append, List.nodup_append]
      refine ⟨hclean, by simp, ?_⟩
      intro a ha hb
      simp only [List.map_cons, List.map_nil, List.mem_singleton] at hb
      subst hb
      rw [Bool.and_eq_true, Bool.not_eq_true', Bool.not_eq_true'] at hcond
      exact absurd (dlookup_isSome_iff.2 ha) (by rw [hcond.2]; simp)
    · simp only [hcond, Bool.false_eq_true, if_false]
      exact hclean
  | none => exact List.nodup_nil
  | bool b => exact List.nodup_nil
  | int n => exact List.nodup_nil
  | float q => exact List.nodup_nil
  | str s => exact List.nodup_nil
  | list xs => exact List.nodup_nil

/-- Every entry of a normalised context is a possible `normalise_context` loop
output (`source = "manual"` included). -/
theorem normalise_good (x : PyVal) :
    ∀ kv ∈ normalise_context x, GoodEntry kv := by
  cases x with
  | dict entries =>
    rw [normalise_dict_def]
    intro kv hkv
    have hclean := foldl_normStep_good entries [] (by intro kv h; cases h)
    by_cases hcond : (!(entries.foldl normStep []).isEmpty
        && !(dlookup (entries.foldl normStep []) "source").isSome) = true
    · simp only [hcond, if_true] at hkv
      rcases List.mem_append.1 hkv with hm | hm
      · exact hclean kv hm
      · rw [List.mem_singleton] at hm
        subst hm
        exact ⟨PyVal.str "manual", rfl⟩
    · simp only [hcond, Bool.false_eq_true, if_false] at hkv
      exact hclean kv hkv
  | none => intro kv h; cases h
  | bool b => intro kv h; cases h
  | int n => intro kv h; cases h
  | float q => intro kv h; cases h
  | str s => intro kv h; cases h
  | list xs => intro kv h; cases h

/-- A non-empty normalised context always carries a `source` key. -/
theorem normalise_source (x : PyVal) (hnil : normalise_context x ≠ []) :
    (dlookup (normalise_context x) "source").isSome = true := by
  cases x with
  | dict entries =>
    rw [normalise_dict_def] at hnil ⊢
    by_cases hcond : (!(entries.foldl normStep []).isEmpty
        && !(dlookup (entries.foldl normStep []) "source").isSome) = true
    · simp only [hcond, if_true]
      rw [dlookup_append]
      rw [Bool.and_eq_true, Bool.not_eq_true'] at hcond
      rw [show dlookup (entries.foldl normStep []) "source" = Option.none from by
        cases hd : dlookup (entries.foldl normStep []) "source"
        · rfl
        · rw [hd] at hcond
          exact absurd hcond.2 (by simp)]
      rfl
    · simp only [hcond, Bool.false_eq_true, if_false] at hnil ⊢
      have hemp : (entries.foldl normStep []).isEmpty = false := by
        cases hi : (entries.foldl normStep []).isEmpty
        · rfl
        · exact absurd (List.isEmpty_iff.1 hi) hnil
      cases hi : (dlookup (entries.foldl normStep []) "source").isSome
      · exfalso
        apply hcond
        rw [hemp, hi]
        rfl
      · rfl
  | none => exact absurd rfl hnil
  | bool b => exact absurd rfl hnil
  | int n => exact absurd rfl hnil
  | float q => exact absurd rfl hnil
  | str s => exact absurd rfl hnil
  | list xs => exact absurd rfl hnil

/-- Counterexample for C3 as frozen: a whitespace-only `breed` survives the
first normalisation as the empty string but is dropped by the second, so the
two results differ both structurally and under Python dict equality. -/
theorem normalise_context_idem_cex :
    ctxPyEq (normalise_context (.dict (normalise_context (.dict [("breed", .str " ")]))))
        (normalise_context (.dict [("breed", .str " ")])) = false ∧
    normalise_context (.dict [("breed", .str " ")])
      = [("breed", .str ""), ("source", .str "manual")] ∧
    normalise_context (.dict (normalise_context (.dict [("breed", .str " ")])))
      = [("source", .str "manual")] := by
  refine ⟨by decide, rfl, rfl⟩

/-- C3 (amended): `normalise_context` is idempotent up to Python dict equality
on every input whose normalisation contains no empty-string value (the
counterexample above shows a whitespace-only string breaks the unrestricted
claim). -/
theorem normalise_context_idem (x : PyVal)
    (hne : ∀ kv ∈ normalise_context x, kv.2 ≠ PyVal.str "") :
    ctxPyEq (normalise_context (.dict (normalise_context x))) (normalise_context x)
      = true := by
  by_cases hnil : normalise_context x = []
  · rw [hnil]
    rfl
  · have hnodup := normalise_keys_nodup x
    have hgood := normalise_good x
    have hsrc := normalise_source x hnil
    have hstab : ∀ kv ∈ normalise_context x, (normEntry kv.1 kv.2).isSome = true ∧
        pyEq ((normEntry kv.1 kv.2).getD PyVal.none) kv.2 = true ∧
        pyEq kv.2 ((normEntry kv.1 kv.2).getD PyVal.none) = true := by
      intro kv hkv
      obtain ⟨v0, hv0⟩ := hgood kv hkv
      obtain ⟨w, hw, h1, h2⟩ := normEntry_stable hv0 (hne kv hkv)
      rw [hw]
      exact ⟨rfl, h1, h2⟩
    have hfold := foldl_normStep_eq_map (normalise_context x) []
      (fun kv hkv => (hstab kv hkv).1) (by simpa using hnodup)
    rw [List.nil_append] at hfold
    have houter : normalise_context (.dict (normalise_context x))
        = (normalise_context x).map
            (fun kv => (kv.1, (normEntry kv.1 kv.2).getD PyVal.none)) := by
      rw [normalise_dict_def]
      simp only [hfold]
      have hsome2 : (dlookup ((normalise_context x).map
          (fun kv => (kv.1, (normEntry kv.1 kv.2).getD PyVal.none))) "source").isSome
          = true := by
        rw [dlookup_isSome_iff, mapValues_keys]
        exact dlookup_isSome_iff.1 hsrc
      rw [hsome2]
      simp
    rw [houter]
    exact ctxPyEq_of_pointwise hnodup (fun kv hkv => ⟨(hstab kv hkv).2.1, (hstab kv hkv).2.2⟩)

/-- Witness for C3 (amended): a context with a breed string and a fractional
age is a fixed point of re-normalisation up to Python `==`. -/
theorem normalise_context_idem_witness :
    ctxPyEq (normalise_context (.dict (normalise_context
        (.dict [("breed", .str "Gir"), ("age_years", .str "5.5")]))))
      (normalise_context (.dict [("breed", .str "Gir"), ("age_years", .str "5.5")]))
      = true :=
  normalise_context_idem (.dict [("breed", .str "Gir"), ("age_years", .str "5.5")])
    (by
      intro kv hkv
      rw [show normalise_context (.dict [("breed", .str "Gir"), ("age_years", .str "5.5")])
          = [("breed", .str "Gir"), ("age_years", .float (mkRat 11 2)),
             ("source", .str "manual")] from rfl] at hkv
      simp only [List.mem_cons, List.not_mem_nil, or_false] at hkv
      rcases hkv with h | h | h <;> rw [h] <;> simp)
